import Mathlib

/-!
Verification development for the `breed` repository (a Flask server `app.py`
and a companion CLI `generate_image.py` that generate and "breed" creature
images through a hosted chat-completion endpoint).

The Python sources are shallowly embedded: pure helpers become Lean
functions; the handlers become functions from an explicit environment
(API key), a network oracle (the hosted model, passed as a function
argument), a file-system model (an association list from paths to byte
lists) and the request body, to an outcome plus the list of outbound
network requests.  Exceptions are modelled with `Except`/explicit outcome
constructors; Python library calls (`base64`, `json`, `pathlib` suffix
handling, f-string conversion) are modelled by executable Lean functions
that follow the documented library semantics on the fragments the
program exercises.
-/

/-! ### JSON documents

`Json` models the documents exchanged by the state endpoints and the
request bodies.  Numbers are modelled as integers: the state blobs the
program round-trips are produced by `json.dump`/`json.load`, and the
embedding does not model floating point. -/

inductive Json where
  | null
  | bool (b : Bool)
  | num (n : Int)
  | str (s : String)
  | arr (items : List Json)
  | obj (fields : List (String × Json))

/-! ### Serializer: model of `json.dump(data, f, indent=2)`

CPython with `indent=2` uses separators `(',', ': ')`, `ensure_ascii=True`
(every character outside printable ASCII is written as a `\uXXXX` escape,
astral characters as a surrogate pair), and represents container nesting
with a newline plus two spaces per depth level; empty containers print as
`[]`/`{}` with no inner whitespace. -/

/-- Two spaces of indentation per nesting level (`indent=2`). -/
def pad (d : Nat) : List Char := List.replicate (2 * d) ' '

/-- Lowercase hexadecimal digit, as CPython emits in `\uXXXX` escapes. -/
def hexDigit (m : Nat) : Char := Char.ofNat (if m < 10 then 48 + m else 87 + m)

/-- Four lowercase hex digits of `n % 0x10000`, most significant first. -/
def hex4 (n : Nat) : List Char :=
  [hexDigit (n / 4096 % 16), hexDigit (n / 256 % 16), hexDigit (n / 16 % 16), hexDigit (n % 16)]

/-- Escape of one character inside a JSON string, following CPython's
`py_encode_basestring_ascii`: the two structural characters and the five
short control escapes come first, remaining control characters and
every character above `~` become `\uXXXX` (astral characters become a
UTF-16 surrogate pair). -/
def escChar (c : Char) : List Char :=
  if c == '"' then ['\\', '"']
  else if c == '\\' then ['\\', '\\']
  else if c == '\n' then ['\\', 'n']
  else if c == '\r' then ['\\', 'r']
  else if c == '\t' then ['\\', 't']
  else if c == '\x08' then ['\\', 'b']
  else if c == '\x0c' then ['\\', 'f']
  else if c.toNat < 0x20 then '\\' :: 'u' :: hex4 c.toNat
  else if c.toNat ≤ 0x7e then [c]
  else if c.toNat < 0x10000 then '\\' :: 'u' :: hex4 c.toNat
  else '\\' :: 'u' :: hex4 (0xd800 + (c.toNat - 0x10000) / 0x400)
       ++ '\\' :: 'u' :: hex4 (0xdc00 + (c.toNat - 0x10000) % 0x400)

/-- Escape of a whole string body (no surrounding quotes). -/
def escStr : List Char → List Char
  | [] => []
  | c :: cs => escChar c ++ escStr cs

/-- Decimal digit character. -/
def digitCh (m : Nat) : Char := Char.ofNat (48 + m)

/-- Decimal representation of a natural number, most significant digit first. -/
def natChars (n : Nat) : List Char :=
  if n < 10 then [digitCh n] else natChars (n / 10) ++ [digitCh (n % 10)]
decreasing_by exact Nat.div_lt_self (by omega) (by omega)

/-- Decimal representation of an integer (Python `repr` of an `int`). -/
def intChars : Int → List Char
  | .ofNat n => natChars n
  | .negSucc n => '-' :: natChars (n + 1)

mutual
/-- Serialized form of a value at nesting depth `d`, exactly as
`json.dump(value, f, indent=2)` writes it. -/
def serVal : Nat → Json → List Char
  | _, .null => ['n', 'u', 'l', 'l']
  | _, .bool true => ['t', 'r', 'u', 'e']
  | _, .bool false => ['f', 'a', 'l', 's', 'e']
  | _, .num i => intChars i
  | _, .str s => '"' :: escStr s.data ++ ['"']
  | _, .arr [] => ['[', ']']
  | d, .arr (x :: xs) =>
      '[' :: '\n' :: pad (d + 1) ++ serVal (d + 1) x ++ serTail (d + 1) xs
        ++ '\n' :: pad d ++ [']']
  | _, .obj [] => ['{', '}']
  | d, .obj (f :: fs) =>
      '{' :: '\n' :: pad (d + 1) ++ serField (d + 1) f ++ serFTail (d + 1) fs
        ++ '\n' :: pad d ++ ['}']

/-- Serialized form of the second and later array items (`,` + newline +
indent before each). -/
def serTail : Nat → List Json → List Char
  | _, [] => []
  | d, x :: xs => ',' :: '\n' :: pad d ++ serVal d x ++ serTail d xs

/-- Serialized form of one object member: quoted escaped key, `: `, value. -/
def serField : Nat → String × Json → List Char
  | d, (k, v) => '"' :: escStr k.data ++ '"' :: ':' :: ' ' :: serVal d v

/-- Serialized form of the second and later object members. -/
def serFTail : Nat → List (String × Json) → List Char
  | _, [] => []
  | d, f :: fs => ',' :: '\n' :: pad d ++ serField d f ++ serFTail d fs
end

/-- Model of `json.dump(data, f, indent=2)`: the exact character stream
written to the state file. -/
def dumps (j : Json) : List Char := serVal 0 j

/-! ### Parser: model of `json.load`

A recursive-descent JSON reader over the character list, total via a fuel
argument (the caller supplies the input length plus one, which suffices;
see the round-trip theorems).  It accepts the JSON whitespace set between
tokens.  Two deliberate restrictions of the model, documented here: a
numeric token continued by `.`/`e`/`E` (a float) and a lone UTF-16
surrogate escape are rejected, since the embedding represents numbers as
integers and characters as Unicode scalar values; `json.dump` output
never contains either. -/

/-- JSON whitespace, as accepted by CPython's scanner. -/
def jsonWs (c : Char) : Bool := c == ' ' || c == '\t' || c == '\n' || c == '\r'

/-- Drop leading JSON whitespace. -/
def skipWs (s : List Char) : List Char := s.dropWhile jsonWs

/-- Value of one hexadecimal digit, either case. -/
def hexVal (c : Char) : Option Nat :=
  if '0' ≤ c ∧ c ≤ '9' then some (c.toNat - 48)
  else if 'a' ≤ c ∧ c ≤ 'f' then some (c.toNat - 87)
  else if 'A' ≤ c ∧ c ≤ 'F' then some (c.toNat - 55)
  else none

/-- Character with the given code point, when that code point is valid. -/
def mkChar? (n : Nat) : Option Char :=
  if n.isValidChar then some (Char.ofNat n) else none

/-- Decoding of a one-character JSON escape. -/
def escDecode : Char → Option Char
  | '"' => some '"'
  | '\\' => some '\\'
  | '/' => some '/'
  | 'b' => some '\x08'
  | 'f' => some '\x0c'
  | 'n' => some '\n'
  | 'r' => some '\r'
  | 't' => some '\t'
  | _ => none

/-- Decoding of the remainder of one escape sequence after the
backslash: the decoded character and the rest of the input.  A high
surrogate escape must be completed by a low surrogate escape (the pair
denotes one astral character). -/
def decodeOne : List Char → Option (Char × List Char)
  | [] => none
  | e :: rest2 =>
    if e == 'u' then
      match rest2 with
      | h1 :: h2 :: h3 :: h4 :: rest3 =>
        match hexVal h1, hexVal h2, hexVal h3, hexVal h4 with
        | some x1, some x2, some x3, some x4 =>
          let v := x1 * 4096 + x2 * 256 + x3 * 16 + x4
          if 0xd800 ≤ v ∧ v < 0xdc00 then
            match rest3 with
            | s1 :: s2 :: g1 :: g2 :: g3 :: g4 :: rest4 =>
              if s1 == '\\' && s2 == 'u' then
                match hexVal g1, hexVal g2, hexVal g3, hexVal g4 with
                | some y1, some y2, some y3, some y4 =>
                  let w := y1 * 4096 + y2 * 256 + y3 * 16 + y4
                  if 0xdc00 ≤ w ∧ w < 0xe000 then
                    match mkChar? (0x10000 + (v - 0xd800) * 0x400 + (w - 0xdc00)) with
                    | some ch => some (ch, rest4)
                    | none => none
                  else none
                | _, _, _, _ => none
              else none
            | _ => none
          else
            match mkChar? v with
            | some ch => some (ch, rest3)
            | none => none
        | _, _, _, _ => none
      | _ => none
    else
      match escDecode e with
      | some ch => some (ch, rest2)
      | none => none

/-- Reading of a JSON string body after the opening quote, up to and
including the closing quote; total via fuel (one unit per produced
character, so the input length suffices).  Raw control characters are
rejected as in CPython's strict mode. -/
def readStr : Nat → List Char → Option (List Char × List Char)
  | 0, _ => none
  | _ + 1, [] => none
  | n + 1, c :: rest =>
    if c == '"' then some ([], rest)
    else if c == '\\' then
      match decodeOne rest with
      | some (ch, r) =>
        match readStr n r with
        | some (cs, r2) => some (ch :: cs, r2)
        | none => none
      | none => none
    else if c.toNat < 0x20 then none
    else
      match readStr n rest with
      | some (cs, r) => some (c :: cs, r)
      | none => none

/-- Greedy decimal-digit reader with accumulator. -/
def readDigits (acc : Nat) : List Char → Nat × List Char
  | [] => (acc, [])
  | c :: rest =>
    if c.isDigit then readDigits (acc * 10 + (c.toNat - 48)) rest else (acc, c :: rest)

/-- Completion of a numeric token: floats are outside the model, so a
continuation by `.`/`e`/`E` is rejected (never produced by `dumps`). -/
def finishNum (neg : Bool) (p : Nat × List Char) : Option (Json × List Char) :=
  match p.2 with
  | [] => some (.num (if neg then -(p.1 : Int) else (p.1 : Int)), [])
  | c :: t =>
    if c == '.' || c == 'e' || c == 'E' then none
    else some (.num (if neg then -(p.1 : Int) else (p.1 : Int)), c :: t)

mutual
/-- Reading of one JSON value (fuel-bounded). -/
def parseVal : Nat → List Char → Option (Json × List Char)
  | 0, _ => none
  | n + 1, s =>
    match skipWs s with
    | [] => none
    | c :: r =>
      if c == 'n' then
        match r with
        | 'u' :: 'l' :: 'l' :: r2 => some (.null, r2)
        | _ => none
      else if c == 't' then
        match r with
        | 'r' :: 'u' :: 'e' :: r2 => some (.bool true, r2)
        | _ => none
      else if c == 'f' then
        match r with
        | 'a' :: 'l' :: 's' :: 'e' :: r2 => some (.bool false, r2)
        | _ => none
      else if c == '"' then
        match readStr (r.length + 1) r with
        | some (cs, r2) => some (.str ⟨cs⟩, r2)
        | none => none
      else if c == '[' then
        match skipWs r with
        | [] => none
        | c2 :: r2 => if c2 == ']' then some (.arr [], r2) else parseElems n (c2 :: r2) []
      else if c == '{' then
        match skipWs r with
        | [] => none
        | c2 :: r2 => if c2 == '}' then some (.obj [], r2) else parseFields n (c2 :: r2) []
      else if c == '-' then
        match r with
        | c2 :: r2 => if c2.isDigit then finishNum true (readDigits (c2.toNat - 48) r2) else none
        | [] => none
      else if c.isDigit then finishNum false (readDigits (c.toNat - 48) r)
      else none

/-- Reading of the items of a non-empty array, accumulator reversed. -/
def parseElems : Nat → List Char → List Json → Option (Json × List Char)
  | 0, _, _ => none
  | n + 1, s, acc =>
    match parseVal n s with
    | some (v, r) =>
      match skipWs r with
      | [] => none
      | c :: r2 =>
        if c == ',' then parseElems n r2 (v :: acc)
        else if c == ']' then some (.arr (v :: acc).reverse, r2)
        else none
    | none => none

/-- Reading of the members of a non-empty object, accumulator reversed. -/
def parseFields : Nat → List Char → List (String × Json) → Option (Json × List Char)
  | 0, _, _ => none
  | n + 1, s, acc =>
    match skipWs s with
    | [] => none
    | c :: r =>
      if c == '"' then
        match readStr (r.length + 1) r with
        | some (k, r2) =>
          match skipWs r2 with
          | [] => none
          | c2 :: r3 =>
            if c2 == ':' then
              match parseVal n r3 with
              | some (v, r4) =>
                match skipWs r4 with
                | [] => none
                | c3 :: r5 =>
                  if c3 == ',' then parseFields n r5 ((⟨k⟩, v) :: acc)
                  else if c3 == '}' then some (.obj ((⟨k⟩, v) :: acc).reverse, r5)
                  else none
              | none => none
            else none
        | none => none
      else none
end

/-- Model of `json.load`: read one document and require only whitespace
after it. -/
def loads (s : List Char) : Option Json :=
  match parseVal (s.length + 1) s with
  | some (j, r) => if skipWs r = [] then some j else none
  | none => none

/-! ### Python string and bytes helpers -/

/-- Whitespace stripped by Python `str.strip()` (modelled on the ASCII
whitespace set; the strings the program strips are model-generated names). -/
def pyWs (c : Char) : Bool :=
  c == ' ' || c == '\t' || c == '\n' || c == '\r' || c == '\x0b' || c == '\x0c'

/-- Model of Python `s.strip()`. -/
def pyStrip (s : String) : String :=
  ⟨((s.data.dropWhile pyWs).reverse.dropWhile pyWs).reverse⟩

/-- Model of the Python slice `s[:3]`. -/
def sliceFirst3 (s : String) : String := ⟨s.data.take 3⟩

/-- Model of the Python slice `s[-3:]`. -/
def sliceLast3 (s : String) : String := ⟨(s.data.reverse.take 3).reverse⟩

/-- Prefix test on character lists (`str.startswith`). -/
def beginsWith : List Char → List Char → Bool
  | [], _ => true
  | _ :: _, [] => false
  | p :: ps, s :: ss => p == s && beginsWith ps ss

/-- Everything after the first occurrence of `c`, or `none` when `c` does
not occur: the second component of Python `s.split(c, 1)`, whose
subscript `[1]` raises `IndexError` exactly in the `none` case. -/
def afterFirst (c : Char) : List Char → Option (List Char)
  | [] => none
  | x :: xs => if x == c then some xs else afterFirst c xs

/-- Substring relation used to state what a prompt text contains. -/
def hasSegment (p s : String) : Prop := ∃ a b, s.data = a ++ p.data ++ b

/-- Base64 alphabet character for one 6-bit group. -/
def b64Char (m : Nat) : Char :=
  Char.ofNat (if m < 26 then 65 + m else if m < 52 then 71 + m
    else if m < 62 then m - 4 else if m = 62 then 43 else 47)

/-- Model of `base64.b64encode` on a byte list (bytes as `Nat` below 256),
standard alphabet with `=` padding. -/
def b64encode : List Nat → List Char
  | a :: b :: c :: rest =>
    b64Char (a / 4) :: b64Char (a % 4 * 16 + b / 16) :: b64Char (b % 16 * 4 + c / 64)
      :: b64Char (c % 64) :: b64encode rest
  | [a, b] => [b64Char (a / 4), b64Char (a % 4 * 16 + b / 16), b64Char (b % 16 * 4), '=']
  | [a] => [b64Char (a / 4), b64Char (a % 4 * 16), '=', '=']
  | [] => []

/-- Value of one base64 alphabet character. -/
def b64Index (c : Char) : Option Nat :=
  if 'A' ≤ c ∧ c ≤ 'Z' then some (c.toNat - 65)
  else if 'a' ≤ c ∧ c ≤ 'z' then some (c.toNat - 71)
  else if '0' ≤ c ∧ c ≤ '9' then some (c.toNat + 4)
  else if c == '+' then some 62
  else if c == '/' then some 63
  else none

/-- Bytes of a run of 6-bit groups; a trailing group of two or three
sextets carries one or two further bytes. -/
def b64Groups : List Nat → List Nat
  | a :: b :: c :: d :: rest =>
    (a * 4 + b / 16) :: (b % 16 * 16 + c / 4) :: (c % 4 * 64 + d) :: b64Groups rest
  | [a, b, c] => [a * 4 + b / 16, b % 16 * 16 + c / 4]
  | [a, b] => [a * 4 + b / 16]
  | [_] => []
  | [] => []

/-- Model of `base64.b64decode` with `validate=False`: characters outside
the alphabet are discarded, the data section ends at the first `=`, and
the final partial group must be completed by the matching amount of
padding, else `binascii.Error` is raised (the `none` case). -/
def b64decode (s : String) : Option (List Nat) :=
  let body := s.data.takeWhile (fun c => c != '=')
  let ds := body.filterMap b64Index
  let padCount := ((s.data.dropWhile (fun c => c != '=')).filter (fun c => c == '=')).length
  let r := ds.length % 4
  if (r = 0 ∧ padCount = 0) ∨ (r = 2 ∧ 2 ≤ padCount) ∨ (r = 3 ∧ 1 ≤ padCount)
  then some (b64Groups ds) else none

mutual
/-- Model of the f-string conversion `str(x)` on a JSON value, as the
handlers interpolate request fields into paths and prompts. -/
def pyStr : Json → String
  | .str s => s
  | .null => "None"
  | .bool true => "True"
  | .bool false => "False"
  | .num i => ⟨intChars i⟩
  | .arr xs => "[" ++ pyReprSeq xs ++ "]"
  | .obj fs => "\x7b" ++ pyReprFields fs ++ "\x7d"

/-- Model of Python `repr(x)` on a JSON value (container elements print
with `repr`; string quoting is modelled with plain single quotes). -/
def pyRepr : Json → String
  | .str s => "\x27" ++ s ++ "\x27"
  | .null => "None"
  | .bool true => "True"
  | .bool false => "False"
  | .num i => ⟨intChars i⟩
  | .arr xs => "[" ++ pyReprSeq xs ++ "]"
  | .obj fs => "\x7b" ++ pyReprFields fs ++ "\x7d"

/-- Comma-separated `repr`s of list elements. -/
def pyReprSeq : List Json → String
  | [] => ""
  | [x] => pyRepr x
  | x :: xs => pyRepr x ++ ", " ++ pyReprSeq xs

/-- Comma-separated `repr`s of dict members. -/
def pyReprFields : List (String × Json) → String
  | [] => ""
  | [(k, v)] => "\x27" ++ k ++ "\x27: " ++ pyRepr v
  | (k, v) :: fs => "\x27" ++ k ++ "\x27: " ++ pyRepr v ++ ", " ++ pyReprFields fs
end

/-- Model of the Python slice `x[:3]` on a JSON value: defined on strings
and lists, a `TypeError` (the `none` case) otherwise. -/
def pySliceFirst3 : Json → Option Json
  | .str s => some (.str (sliceFirst3 s))
  | .arr xs => some (.arr (xs.take 3))
  | _ => none

/-- Model of the Python slice `x[-3:]` on a JSON value. -/
def pySliceLast3 : Json → Option Json
  | .str s => some (.str (sliceLast3 s))
  | .arr xs => some (.arr ((xs.reverse.take 3).reverse))
  | _ => none

/-! ### The model-response shape and the file-system model -/

/-- One entry of a message's `images` list: the item's `"type"` tag and
the nested `image_url.url` data URI. -/
structure ImageItem where
  type : String
  url : String

/-- One candidate message: optional free text (`content`) and the
optional `images` attribute (absent or `None` both modelled as `none`;
`some []` is the present-but-empty list, which is falsy in Python). -/
structure Message where
  content : Option String
  images : Option (List ImageItem)

/-- One choice of a chat-completion response (`message` may be `None`). -/
structure Choice where
  message : Option Message

/-- A chat-completion response. -/
structure Response where
  choices : List Choice

/-- Outbound request content: a plain text prompt or a multimodal block
list, as passed to `client.chat.completions.create`. -/
inductive ContentBlock where
  | text (t : String)
  | image_url (u : String)

/-- Content of the single user message of an outbound request. -/
inductive ReqContent where
  | plain (s : String)
  | blocks (l : List ContentBlock)

/-- One outbound chat-completion request. -/
structure Req where
  model : String
  content : ReqContent

/-- Result of one outbound call: a response, or a raised exception
carrying its message. -/
inductive ApiResult where
  | success (r : Response)
  | raise (e : String)

/-- File system: paths mapped to byte contents; a write prepends, reads
see the newest entry. -/
abbrev FS := List (String × List Nat)

/-- Effect of `open(path, "wb")` followed by writing `bytes` (also the
empty write performed by `open` alone, which truncates). -/
def fsWrite (fs : FS) (path : String) (bytes : List Nat) : FS := (path, bytes) :: fs

/-- Match test of the extraction loop: the item is declared an inline
image and its URL is a `data:image` URI. -/
def matchItem (i : ImageItem) : Bool :=
  i.type == "image_url" && beginsWith "data:image".data i.url.data

/-- Truthiness normalization of a message's `content` field, as in
`message.content if message.content else None`. -/
def textOf (m : Message) : Option String :=
  match m.content with
  | some t => if t == "" then none else some t
  | none => none

/-- Scan of a message's media list in order, as both extractors loop:
the first matching item's payload after the first comma wins; no match
leaves the image empty; a matching URI without a comma raises
`IndexError` (the `.error` case). -/
def scanImages : List ImageItem → Except Unit (Option String)
  | [] => .ok none
  | i :: rest =>
    if matchItem i then
      match afterFirst ',' i.url.data with
      | some payload => .ok (some ⟨payload⟩)
      | none => .error ()
    else scanImages rest

/-- Message of the `IndexError` raised by subscripting an empty or
too-short list. -/
def indexErrorMsg : String := "list index out of range"

/-- Message of the `binascii.Error` raised by `base64.b64decode`. -/
def base64ErrorMsg : String := "Invalid base64-encoded string"

/-- Message of the `TypeError` raised by slicing an unsliceable value. -/
def typeErrorMsg : String := "object is not subscriptable"

/-- Message of the `AttributeError` raised by attribute access on `None`. -/
def noneAttrMsg : String := "NoneType object has no such attribute"

namespace App

/-! ### Embedding of `app.py` (the Flask server)

Handlers take the API key (process environment), the network oracle (the
hosted model endpoint), the file-system state, the fresh identifier that
`str(uuid.uuid4())[:8]` would mint, and the request body (a JSON object's
field list); they return the new file system, an outcome, and the list of
outbound `chat.completions.create` requests in call order. -/

/-- Text model name bound at the top of `app.py`. -/
def TEXT_MODEL : String := "anthropic/claude-haiku-4.5"

/-- Image model name bound at the top of `app.py`. -/
def IMAGE_MODEL : String := "google/gemini-3-pro-image-preview"

/-- Path under `IMAGES_DIR` of the PNG for an identifier, as the
interpolation `IMAGES_DIR / f"{x}.png"` forms it. -/
def imagePath (x : String) : String := "static/generated/" ++ x ++ ".png"

/-- Message of the `ValueError` raised by `get_client`. -/
def keyErrorMsg : String := "OPENROUTER_API_KEY environment variable not set"

/-- Model of `get_client`: checks the credential and builds the client
handle; `raise ValueError(...)` is the `.error` case.  `if not api_key`
is taken both when the variable is unset and when it is empty. -/
def get_client (apiKey : Option String) : Except String Unit :=
  match apiKey with
  | none => .error keyErrorMsg
  | some k => if k == "" then .error keyErrorMsg else .ok ()

/-- Error response body `{"error": msg}` produced by the handlers'
`except` clauses. -/
def errBody (msg : String) : Json := .obj [("error", .str msg)]

/-- Outcome of one handler invocation: a JSON response with its HTTP
status, or an exception that escapes the handler uncaught. -/
inductive Outcome where
  | json (body : Json) (status : Nat)
  | uncaught (msg : String)

/-- Model of `extract_image_from_response`: first candidate message,
its truthy free text, and the media scan of `scanImages`. -/
def extract_image_from_response (response : Response) :
    Except Unit (Option String × Option String) :=
  match response.choices with
  | [] => .ok (none, none)
  | ch :: _ =>
    match ch.message with
    | none => .ok (none, none)
    | some message =>
      let text_content := textOf message
      match message.images with
      | none => .ok (none, text_content)
      | some imgs =>
        match scanImages imgs with
        | .ok image_data => .ok (image_data, text_content)
        | .error e => .error e

/-- Instruction text of the random-prompt request. -/
def randomPromptText : String :=
  "Generate a single creative and unique fantasy creature description for an image generator.\nBe imaginative! Mix unexpected elements like:\n- Animal hybrids (e.g., \"a bioluminescent axolotl-phoenix\")\n- Elemental creatures (e.g., \"a storm spirit made of lightning\")\n- Mythical beings (e.g., \"a tiny dragon that lives in teacups\")\n- Surreal combinations (e.g., \"a crystal deer with galaxies in its antlers\")\n\nRespond with ONLY the creature description, nothing else. Keep it under 15 words."

/-- Model of the `/api/random-prompt` handler.  `get_client()` runs
before the `try` block, so its `ValueError` escapes uncaught; inside the
`try`, a raised call, an empty `choices`, a `None` message and a `None`
`content` all become the 500 error body. -/
def random_prompt (apiKey : Option String) (oracle : Req → ApiResult) :
    Outcome × List Req :=
  match get_client apiKey with
  | .error e => (.uncaught e, [])
  | .ok _ =>
    let req : Req := { model := TEXT_MODEL, content := .plain randomPromptText }
    match oracle req with
    | .raise e => (.json (errBody e) 500, [req])
    | .success response =>
      match response.choices with
      | [] => (.json (errBody indexErrorMsg) 500, [req])
      | ch :: _ =>
        match ch.message with
        | none => (.json (errBody noneAttrMsg) 500, [req])
        | some message =>
          match message.content with
          | none => (.json (errBody noneAttrMsg) 500, [req])
          | some t => (.json (.obj [("prompt", .str (pyStrip t))]) 200, [req])

/-- Full prompt of the `/api/generate` request around the user's prompt. -/
def generatePromptText (prompt : String) : String :=
  "Generate an image of: " ++ prompt
    ++ "\n\nMake it detailed and visually appealing.\n\nAlso give it a short creative name. Respond with ONLY the name."

/-- Display name of a generated animal: the stripped extracted name when
truthy, the fixed default otherwise. -/
def generateName (name : Option String) : String :=
  match name with
  | some t => pyStrip t
  | none => "Unknown Creature"

/-- Model of the `/api/generate` handler. -/
def generate_animal (fs : FS) (apiKey : Option String) (oracle : Req → ApiResult)
    (newId : String) (body : List (String × Json)) : FS × Outcome × List Req :=
  let prompt := (body.lookup "prompt").getD (.str "a cute fantasy animal")
  match get_client apiKey with
  | .error e => (fs, .uncaught e, [])
  | .ok _ =>
    let req : Req := { model := IMAGE_MODEL, content := .plain (generatePromptText (pyStr prompt)) }
    match oracle req with
    | .raise e => (fs, .json (errBody e) 500, [req])
    | .success response =>
      match extract_image_from_response response with
      | .error _ => (fs, .json (errBody indexErrorMsg) 500, [req])
      | .ok (image_data, name) =>
        match image_data with
        | none => (fs, .json (errBody "No image generated") 500, [req])
        | some payload =>
          match b64decode payload with
          | none => (fsWrite fs (imagePath newId) [], .json (errBody base64ErrorMsg) 500, [req])
          | some bytes =>
            (fsWrite fs (imagePath newId) bytes,
             .json (.obj [("id", .str newId),
                          ("name", .str (generateName name)),
                          ("image_url", .str ("/static/generated/" ++ newId ++ ".png"))]) 200,
             [req])

/-- Chunks of the breeding prompt; their concatenation in `breedPrompt`
is the exact f-string of `breed_animals`, split so that the
instruction phrases singled out by the specification are sub-chunks. -/
def bp1 : String :=
  "You are a fantasy creature designer. Two magical creatures have bred and produced offspring.\n\nPARENT 1: \""

/-- Chunk between the two parent names. -/
def bp2 : String := "\" (see first image)\nPARENT 2: \""

/-- Chunk after the second parent name. -/
def bp3 : String := "\" (see second image)\n\nYour task: Imagine and "

/-- The design-new-offspring instruction phrase. -/
def phraseDesign : String := "design their OFFSPRING"

/-- Chunk with the trait checklist. -/
def bp4 : String :=
  " - a completely NEW fantastical creature that could believably be born from these two parents.\n\nThink about:\n- What body structure would it inherit? (size, shape, limbs)\n- What textures and materials? (scales, fur, crystal, coral, etc.)\n- What colors and patterns would emerge from mixing the parents?\n- What special abilities or magical properties might it have?\n- What environment would it live in?\n\nCreate a detailed, imaginative image of this NEW creature. It should feel like a real fantasy species that inherited traits from both parents in surprising and creative ways. "

/-- The no-pixel-blending instruction phrase. -/
def phraseNoBlend : String := "Don\x27t just blend the images"

/-- Chunk before the naming instruction. -/
def bp5 : String :=
  " - imagine what their CHILD would actually look like as a unique being.\n\nAlso invent a creative species name for this offspring that reflects its heritage. "

/-- The name-only reply instruction phrase. -/
def phraseOnlyName : String := "Respond with ONLY the name"

/-- Closing chunk. -/
def bp6 : String := ", nothing else."

/-- The breeding prompt around the two parent display names. -/
def breedPrompt (n1 n2 : String) : String :=
  bp1 ++ n1 ++ bp2 ++ n2 ++ bp3 ++ phraseDesign ++ bp4 ++ phraseNoBlend
    ++ bp5 ++ phraseOnlyName ++ bp6

/-- Display name of the offspring: the stripped extracted name when
truthy, else the f-string `f"{parent1_name[:3]}{parent2_name[-3:]}"`
whose slices raise `TypeError` (the `none` case) on unsliceable parent
name values. -/
def breedName (name : Option String) (parent1_name parent2_name : Json) : Option String :=
  match name with
  | some t => some (pyStrip t)
  | none =>
    match pySliceFirst3 parent1_name, pySliceLast3 parent2_name with
    | some a, some b => some (pyStr a ++ pyStr b)
    | _, _ => none

/-- Model of the `/api/breed` handler.  The order follows the source:
field defaults, parent paths, the on-disk existence check (404 before
anything else), `get_client()` (uncaught `ValueError` outside the
`try`), encoding, the outbound call, extraction, decoding and the
response; the output file is opened (created) before the base64 payload
is decoded, and the name fallback is computed after the file is
written. -/
def breed_animals (fs : FS) (apiKey : Option String) (oracle : Req → ApiResult)
    (newId : String) (body : List (String × Json)) : FS × Outcome × List Req :=
  let parent1_id := (body.lookup "parent1_id").getD .null
  let parent2_id := (body.lookup "parent2_id").getD .null
  let parent1_name := (body.lookup "parent1_name").getD (.str "creature 1")
  let parent2_name := (body.lookup "parent2_name").getD (.str "creature 2")
  let parent1_path := imagePath (pyStr parent1_id)
  let parent2_path := imagePath (pyStr parent2_id)
  match fs.lookup parent1_path, fs.lookup parent2_path with
  | some bytes1, some bytes2 =>
    match get_client apiKey with
    | .error e => (fs, .uncaught e, [])
    | .ok _ =>
      let req : Req :=
        { model := IMAGE_MODEL,
          content := .blocks
            [.text (breedPrompt (pyStr parent1_name) (pyStr parent2_name)),
             .image_url ("data:image/png;base64," ++ ⟨b64encode bytes1⟩),
             .image_url ("data:image/png;base64," ++ ⟨b64encode bytes2⟩)] }
      match oracle req with
      | .raise e => (fs, .json (errBody e) 500, [req])
      | .success response =>
        match extract_image_from_response response with
        | .error _ => (fs, .json (errBody indexErrorMsg) 500, [req])
        | .ok (image_data, name) =>
          match image_data with
          | none => (fs, .json (errBody "No image generated") 500, [req])
          | some payload =>
            match b64decode payload with
            | none => (fsWrite fs (imagePath newId) [], .json (errBody base64ErrorMsg) 500, [req])
            | some bytes =>
              let fs2 := fsWrite fs (imagePath newId) bytes
              match breedName name parent1_name parent2_name with
              | none => (fs2, .json (errBody typeErrorMsg) 500, [req])
              | some nm =>
                (fs2,
                 .json (.obj [("id", .str newId),
                              ("name", .str nm),
                              ("image_url", .str ("/static/generated/" ++ newId ++ ".png")),
                              ("parents", .arr [parent1_id, parent2_id])]) 200,
                 [req])
  | _, _ => (fs, .json (errBody "Parent images not found") 404, [])

/-- Content of `state.json`: `none` before the first save. -/
abbrev StateFile := Option (List Char)

/-- Model of the `/api/save-state` handler: the posted document is
serialized over the whole file. -/
def save_state (st : StateFile) (data : Json) : StateFile × Outcome :=
  match st with
  | _ => (some (dumps data), .json (.obj [("success", .bool true)]) 200)

/-- Model of the `/api/load-state` handler: parse the file when it
exists, else the fixed empty structure. -/
def load_state (st : StateFile) : Outcome :=
  match st with
  | some content =>
    match loads content with
    | some j => .json j 200
    | none => .json (errBody "Invalid JSON in state file") 500
  | none => .json (.obj [("animals", .arr []), ("familyLines", .arr [])]) 200

end App

namespace Cli

/-! ### Embedding of `generate_image.py` (the companion CLI) -/

/-- Outcome of one CLI code path: `sys.exit(code)`, a normal boolean
return value, or an uncaught exception ending the process. -/
inductive CliOut where
  | exited (code : Nat)
  | ret (b : Bool)
  | crash (msg : String)

/-- Model of the CLI `get_client`: prints an error and `sys.exit(1)`
when the credential is missing or empty. -/
def get_client (apiKey : Option String) : Except Unit Unit :=
  match apiKey with
  | none => .error ()
  | some k => if k == "" then .error () else .ok ()

/-- Model of `Path(image_path).suffix`: the dotted extension of the last
path component; empty when the name has no dot, when the only dot is
leading, or when the dot is final. -/
def pathSuffix (p : String) : String :=
  let name := (p.data.reverse.takeWhile (fun c => c != '/')).reverse
  let ext := name.reverse.takeWhile (fun c => c != '.')
  if name.contains '.' && !ext.isEmpty && Nat.ble (ext.length + 2) name.length
  then ⟨'.' :: ext.reverse⟩ else ""

/-- Model of `str.lower()` on the ASCII range of the extension table. -/
def asciiLower (s : String) : String :=
  ⟨s.data.map (fun c => if 65 ≤ c.toNat ∧ c.toNat ≤ 90 then Char.ofNat (c.toNat + 32) else c)⟩

/-- The fixed extension table of `get_image_mime_type`. -/
def mime_types : List (String × String) :=
  [(".jpg", "image/jpeg"), (".jpeg", "image/jpeg"), (".png", "image/png"),
   (".gif", "image/gif"), (".webp", "image/webp")]

/-- Model of `get_image_mime_type`: table lookup on the lowercased
suffix, defaulting to `image/jpeg`. -/
def get_image_mime_type (image_path : String) : String :=
  (mime_types.lookup (asciiLower (pathSuffix image_path))).getD "image/jpeg"

/-- Loop body of `extract_and_save_image` over the media list: the first
matching item's payload is decoded and written to the output path (the
file is opened, hence created, before the decode can raise); the
`IndexError` of a comma-less URI and the `binascii.Error` of an invalid
payload are uncaught in the CLI. -/
def scanSave (fs : FS) (output_path : String) : List ImageItem → FS × CliOut
  | [] => (fs, .ret false)
  | i :: rest =>
    if matchItem i then
      match afterFirst ',' i.url.data with
      | none => (fs, .crash indexErrorMsg)
      | some payload =>
        match b64decode ⟨payload⟩ with
        | none => (fsWrite fs output_path [], .crash base64ErrorMsg)
        | some bytes => (fsWrite fs output_path bytes, .ret true)
    else scanSave fs output_path rest

/-- Model of `extract_and_save_image`. -/
def extract_and_save_image (fs : FS) (response : Response) (output_path : String) :
    FS × CliOut :=
  match response.choices with
  | [] => (fs, .ret false)
  | ch :: _ =>
    match ch.message with
    | none => (fs, .ret false)
    | some message =>
      match message.images with
      | none => (fs, .ret false)
      | some imgs => scanSave fs output_path imgs

/-- Model of `generate_from_text`. -/
def generate_from_text (fs : FS) (apiKey : Option String) (oracle : Req → ApiResult)
    (prompt output_path model : String) : FS × CliOut × List Req :=
  match get_client apiKey with
  | .error _ => (fs, .exited 1, [])
  | .ok _ =>
    let req : Req := { model := model, content := .plain prompt }
    match oracle req with
    | .raise e => (fs, .crash e, [req])
    | .success response =>
      let out := extract_and_save_image fs response output_path
      (out.1, out.2, [req])

/-- Model of `generate_from_image`: credential first, then the input
existence check, then the outbound call. -/
def generate_from_image (fs : FS) (apiKey : Option String) (oracle : Req → ApiResult)
    (input_image prompt output_path model : String) : FS × CliOut × List Req :=
  match get_client apiKey with
  | .error _ => (fs, .exited 1, [])
  | .ok _ =>
    match fs.lookup input_image with
    | none => (fs, .ret false, [])
    | some bytes =>
      let req : Req :=
        { model := model,
          content := .blocks
            [.text ("Generate an image: " ++ prompt),
             .image_url ("data:" ++ get_image_mime_type input_image ++ ";base64," ++ ⟨b64encode bytes⟩)] }
      match oracle req with
      | .raise e => (fs, .crash e, [req])
      | .success response =>
        let out := extract_and_save_image fs response output_path
        (out.1, out.2, [req])

/-- Model of `generate_from_two_images`: credential first, then both
input existence checks in order, then encoding and the outbound call
with the text block followed by the first and the second image. -/
def generate_from_two_images (fs : FS) (apiKey : Option String) (oracle : Req → ApiResult)
    (image1 image2 prompt output_path model : String) : FS × CliOut × List Req :=
  match get_client apiKey with
  | .error _ => (fs, .exited 1, [])
  | .ok _ =>
    match fs.lookup image1 with
    | none => (fs, .ret false, [])
    | some bytes1 =>
      match fs.lookup image2 with
      | none => (fs, .ret false, [])
      | some bytes2 =>
        let req : Req :=
          { model := model,
            content := .blocks
              [.text ("Generate a new image that combines or blends these two images: " ++ prompt),
               .image_url ("data:" ++ get_image_mime_type image1 ++ ";base64," ++ ⟨b64encode bytes1⟩),
               .image_url ("data:" ++ get_image_mime_type image2 ++ ";base64," ++ ⟨b64encode bytes2⟩)] }
        match oracle req with
        | .raise e => (fs, .crash e, [req])
        | .success response =>
          let out := extract_and_save_image fs response output_path
          (out.1, out.2, [req])

end Cli

/-! ### Statement-level helpers and concrete fixtures -/

/-- A run of JSON whitespace characters. -/
def wsRun (w : List Char) : Prop := ∀ c ∈ w, jsonWs c = true

/-- A continuation in front of which a numeric token stops: empty input
or a head that cannot extend a number. -/
def numOk : List Char → Bool
  | [] => true
  | c :: _ => !(c.isDigit || c == '.' || c == 'e' || c == 'E')

/-- Field access on a JSON object. -/
def jGet : Json → String → Option Json
  | .obj fs, k => fs.lookup k
  | _, _ => none

/-- A non-success outcome: an error response or an uncaught exception. -/
def isFail : App.Outcome → Prop
  | .json _ status => status ≠ 200
  | .uncaught _ => True

/-- The media list the extractors scan: the first candidate message's
truthy-or-empty `images`. -/
def respImages (r : Response) : List ImageItem :=
  match r.choices with
  | [] => []
  | ch :: _ =>
    match ch.message with
    | none => []
    | some m => m.images.getD []

/-- An oracle whose call raises. -/
def oracleRaise : Req → ApiResult := fun _ => .raise "upstream failure"

/-- An oracle returning the fixed response `r`. -/
def oracleOf (r : Response) : Req → ApiResult := fun _ => .success r

/-- A media item carrying a well-formed PNG data URI. -/
def itemPng : ImageItem := { type := "image_url", url := "data:image/png;base64,AAAA" }

/-- A response with one message carrying text and `itemPng`. -/
def respName : Response :=
  { choices := [{ message := some { content := some "Name", images := some [itemPng] } }] }

/-- A response whose only message has an image but no text. -/
def respImgOnly : Response :=
  { choices := [{ message := some { content := none, images := some [itemPng] } }] }

/-- A media item whose data URI has no comma. -/
def itemNoComma : ImageItem := { type := "image_url", url := "data:image/png;base64" }

/-- A response whose first matching media item has a comma-less URI. -/
def respNoComma : Response :=
  { choices := [{ message := some { content := some "Name", images := some [itemNoComma] } }] }

/-- A media item whose payload is not valid base64 (five data characters). -/
def itemBad : ImageItem := { type := "image_url", url := "data:image/png;base64,AAAAA" }

/-- A response whose first matching media item has an undecodable payload. -/
def respBad : Response :=
  { choices := [{ message := some { content := some "Name", images := some [itemBad] } }] }

/-- A file system holding the two parent images `p1` and `p2`. -/
def fsParents : FS := [(App.imagePath "p1", [1, 2, 3]), (App.imagePath "p2", [9, 8, 7])]

/-- A breed request body naming the two parents of the specification's
fallback-name example. -/
def breedBody : List (String × Json) :=
  [("parent1_id", .str "p1"), ("parent2_id", .str "p2"),
   ("parent1_name", .str "Alphaborn"), ("parent2_name", .str "Zephyrix")]

/-! ## Theorems

First the supporting lemmas for the state-file codec round-trip, then
the claim theorems. -/

/-- Rebuilding a string from its character data is the identity. -/
theorem strEta (s : String) : String.mk s.data = s := by cases s; rfl

/-- Character data of an appended string. -/
theorem strAppData (s t : String) : (s ++ t).data = s.data ++ t.data := by
  cases s; cases t; rfl

/-- Reading back an emitted hexadecimal digit. -/
theorem hexVal_hexDigit : ∀ m < 16, hexVal (hexDigit m) = some m := by decide

/-- Rebuilding a character from its own code point. -/
theorem mkChar?_toNat (c : Char) : mkChar? c.toNat = some c := by
  have h : c.toNat.isValidChar := c.valid
  unfold mkChar?
  rw [if_pos h, Char.ofNat_toNat]


/-- Reduction of `decodeOne` on a `\uXXXX` escape whose value is not a
high surrogate. -/
theorem decodeOne_scalar (h1 h2 h3 h4 : Char) (x1 x2 x3 x4 : Nat) (rest3 : List Char)
    (e1 : hexVal h1 = some x1) (e2 : hexVal h2 = some x2)
    (e3 : hexVal h3 = some x3) (e4 : hexVal h4 = some x4)
    (hns : ¬(0xd800 ≤ x1 * 4096 + x2 * 256 + x3 * 16 + x4
             ∧ x1 * 4096 + x2 * 256 + x3 * 16 + x4 < 0xdc00)) :
    decodeOne ('u' :: h1 :: h2 :: h3 :: h4 :: rest3) =
      match mkChar? (x1 * 4096 + x2 * 256 + x3 * 16 + x4) with
      | some ch => some (ch, rest3)
      | none => none := by
  rw [decodeOne]
  rw [if_pos (by decide)]
  simp only [e1, e2, e3, e4]
  rw [if_neg hns]

/-- Reduction of `decodeOne` on a surrogate-pair escape. -/
theorem decodeOne_pair (h1 h2 h3 h4 g1 g2 g3 g4 : Char)
    (x1 x2 x3 x4 y1 y2 y3 y4 : Nat) (rest4 : List Char)
    (e1 : hexVal h1 = some x1) (e2 : hexVal h2 = some x2)
    (e3 : hexVal h3 = some x3) (e4 : hexVal h4 = some x4)
    (f1 : hexVal g1 = some y1) (f2 : hexVal g2 = some y2)
    (f3 : hexVal g3 = some y3) (f4 : hexVal g4 = some y4)
    (hhi : 0xd800 ≤ x1 * 4096 + x2 * 256 + x3 * 16 + x4
           ∧ x1 * 4096 + x2 * 256 + x3 * 16 + x4 < 0xdc00)
    (hlo : 0xdc00 ≤ y1 * 4096 + y2 * 256 + y3 * 16 + y4
           ∧ y1 * 4096 + y2 * 256 + y3 * 16 + y4 < 0xe000) :
    decodeOne ('u' :: h1 :: h2 :: h3 :: h4 :: '\\' :: 'u' :: g1 :: g2 :: g3 :: g4 :: rest4) =
      match mkChar? (0x10000 + (x1 * 4096 + x2 * 256 + x3 * 16 + x4 - 0xd800) * 0x400
                     + (y1 * 4096 + y2 * 256 + y3 * 16 + y4 - 0xdc00)) with
      | some ch => some (ch, rest4)
      | none => none := by
  rw [decodeOne]
  rw [if_pos (by decide)]
  simp only [e1, e2, e3, e4]
  rw [if_pos hhi]
  rw [if_pos (by decide)]
  simp only [f1, f2, f3, f4]
  rw [if_pos hlo]

/-- Reading one escaped character undoes `escChar`, whatever follows. -/
theorem readStr_escChar (c : Char) (fuel : Nat) (rest : List Char) :
    readStr (fuel + 1) (escChar c ++ rest) =
      match readStr fuel rest with
      | some (cs, r) => some (c :: cs, r)
      | none => none := by
  have hval : c.toNat < 0xd800 ∨ (0xdfff < c.toNat ∧ c.toNat < 0x110000) := c.valid
  by_cases h1 : c = '"'
  · subst h1; rfl
  by_cases h2 : c = '\\'
  · subst h2; rfl
  by_cases h3 : c = '\n'
  · subst h3; rfl
  by_cases h4 : c = '\r'
  · subst h4; rfl
  by_cases h5 : c = '\t'
  · subst h5; rfl
  by_cases h6 : c = '\x08'
  · subst h6; rfl
  by_cases h7 : c = '\x0c'
  · subst h7; rfl
  by_cases h8 : c.toNat < 0x20
  · have hesc : escChar c = '\\' :: 'u' :: hex4 c.toNat := by
      simp [escChar, h1, h2, h3, h4, h5, h6, h7, h8]
    rw [hesc]
    simp only [hex4, List.cons_append, List.nil_append]
    rw [readStr]
    rw [if_neg (by decide), if_pos (by decide)]
    rw [decodeOne_scalar _ _ _ _ _ _ _ _ rest
          (hexVal_hexDigit _ (by omega)) (hexVal_hexDigit _ (by omega))
          (hexVal_hexDigit _ (by omega)) (hexVal_hexDigit _ (by omega))
          (by omega)]
    rw [show c.toNat / 4096 % 16 * 4096 + c.toNat / 256 % 16 * 256
          + c.toNat / 16 % 16 * 16 + c.toNat % 16 = c.toNat from by omega]
    rw [mkChar?_toNat]
  by_cases h9 : c.toNat ≤ 0x7e
  · have hesc : escChar c = [c] := by
      simp [escChar, h1, h2, h3, h4, h5, h6, h7, h8, h9]
    rw [hesc, List.singleton_append]
    rw [readStr]
    rw [if_neg (by simp [h1]), if_neg (by simp [h2]), if_neg h8]
  by_cases h10 : c.toNat < 0x10000
  · have hesc : escChar c = '\\' :: 'u' :: hex4 c.toNat := by
      simp [escChar, h1, h2, h3, h4, h5, h6, h7, h8, h9, h10]
    rw [hesc]
    simp only [hex4, List.cons_append, List.nil_append]
    rw [readStr]
    rw [if_neg (by decide), if_pos (by decide)]
    rw [decodeOne_scalar _ _ _ _ _ _ _ _ rest
          (hexVal_hexDigit _ (by omega)) (hexVal_hexDigit _ (by omega))
          (hexVal_hexDigit _ (by omega)) (hexVal_hexDigit _ (by omega))
          (by omega)]
    rw [show c.toNat / 4096 % 16 * 4096 + c.toNat / 256 % 16 * 256
          + c.toNat / 16 % 16 * 16 + c.toNat % 16 = c.toNat from by omega]
    rw [mkChar?_toNat]
  · have hesc : escChar c = '\\' :: 'u' :: hex4 (0xd800 + (c.toNat - 0x10000) / 0x400)
        ++ '\\' :: 'u' :: hex4 (0xdc00 + (c.toNat - 0x10000) % 0x400) := by
      simp [escChar, h1, h2, h3, h4, h5, h6, h7, h8, h9, h10]
    rw [hesc]
    simp only [hex4, List.cons_append, List.nil_append, List.append_assoc]
    rw [readStr]
    rw [if_neg (by decide), if_pos (by decide)]
    rw [decodeOne_pair _ _ _ _ _ _ _ _ _ _ _ _ _ _ _ _ rest
          (hexVal_hexDigit _ (by omega)) (hexVal_hexDigit _ (by omega))
          (hexVal_hexDigit _ (by omega)) (hexVal_hexDigit _ (by omega))
          (hexVal_hexDigit _ (by omega)) (hexVal_hexDigit _ (by omega))
          (hexVal_hexDigit _ (by omega)) (hexVal_hexDigit _ (by omega))
          (by constructor <;> omega) (by constructor <;> omega)]
    rw [show 0x10000
          + ((0xd800 + (c.toNat - 0x10000) / 0x400) / 4096 % 16 * 4096
             + (0xd800 + (c.toNat - 0x10000) / 0x400) / 256 % 16 * 256
             + (0xd800 + (c.toNat - 0x10000) / 0x400) / 16 % 16 * 16
             + (0xd800 + (c.toNat - 0x10000) / 0x400) % 16 - 0xd800) * 0x400
          + ((0xdc00 + (c.toNat - 0x10000) % 0x400) / 4096 % 16 * 4096
             + (0xdc00 + (c.toNat - 0x10000) % 0x400) / 256 % 16 * 256
             + (0xdc00 + (c.toNat - 0x10000) % 0x400) / 16 % 16 * 16
             + (0xdc00 + (c.toNat - 0x10000) % 0x400) % 16 - 0xdc00) = c.toNat from by omega]
    rw [mkChar?_toNat]

/-- Reading an escaped string body stops exactly at the closing quote. -/
theorem readStr_escStr (cs : List Char) : ∀ (fuel : Nat) (rest : List Char),
    cs.length < fuel → readStr fuel (escStr cs ++ '"' :: rest) = some (cs, rest) := by
  induction cs with
  | nil =>
    intro fuel rest h
    cases fuel with
    | zero => omega
    | succ m => rfl
  | cons c cs ih =>
    intro fuel rest h
    cases fuel with
    | zero => omega
    | succ m =>
      rw [show escStr (c :: cs) = escChar c ++ escStr cs from rfl, List.append_assoc,
          readStr_escChar, ih m rest (by simp only [List.length_cons] at h; omega)]

/-- Emitted decimal digits read back as digits with the expected values. -/
theorem digit_facts : ∀ m < 10, (digitCh m).isDigit = true ∧ (digitCh m).toNat = 48 + m := by
  decide

/-- The decimal representation starts with a digit. -/
theorem natChars_head (n : Nat) : ∃ c cs, natChars n = c :: cs ∧ c.isDigit = true := by
  induction n using Nat.strong_induction_on with
  | _ n ih =>
    rw [natChars]
    by_cases h : n < 10
    · exact ⟨digitCh n, [], by rw [if_pos h], (digit_facts n h).1⟩
    · obtain ⟨c, cs, hcons, hdig⟩ := ih (n / 10) (Nat.div_lt_self (by omega) (by omega))
      exact ⟨c, cs ++ [digitCh (n % 10)], by rw [if_neg h, hcons]; rfl, hdig⟩

/-- A decimal digit is none of the token-starting characters, none of
the closing delimiters, and not whitespace. -/
theorem digit_not_key (c : Char) (h : c.isDigit = true) :
    (c == 'n') = false ∧ (c == 't') = false ∧ (c == 'f') = false ∧ (c == '"') = false
    ∧ (c == '[') = false ∧ (c == '{') = false ∧ (c == '-') = false
    ∧ (c == ']') = false ∧ (c == '}') = false ∧ (c == ',') = false ∧ jsonWs c = false := by
  refine ⟨?_, ?_, ?_, ?_, ?_, ?_, ?_, ?_, ?_, ?_, ?_⟩
  case _ => rw [beq_eq_false_iff_ne]; intro hEq; subst hEq; exact absurd h (by decide)
  case _ => rw [beq_eq_false_iff_ne]; intro hEq; subst hEq; exact absurd h (by decide)
  case _ => rw [beq_eq_false_iff_ne]; intro hEq; subst hEq; exact absurd h (by decide)
  case _ => rw [beq_eq_false_iff_ne]; intro hEq; subst hEq; exact absurd h (by decide)
  case _ => rw [beq_eq_false_iff_ne]; intro hEq; subst hEq; exact absurd h (by decide)
  case _ => rw [beq_eq_false_iff_ne]; intro hEq; subst hEq; exact absurd h (by decide)
  case _ => rw [beq_eq_false_iff_ne]; intro hEq; subst hEq; exact absurd h (by decide)
  case _ => rw [beq_eq_false_iff_ne]; intro hEq; subst hEq; exact absurd h (by decide)
  case _ => rw [beq_eq_false_iff_ne]; intro hEq; subst hEq; exact absurd h (by decide)
  case _ => rw [beq_eq_false_iff_ne]; intro hEq; subst hEq; exact absurd h (by decide)
  case _ =>
    simp only [jsonWs, Bool.or_eq_false_iff]
    refine ⟨⟨⟨?_, ?_⟩, ?_⟩, ?_⟩ <;>
      (rw [beq_eq_false_iff_ne]; intro hEq; subst hEq; exact absurd h (by decide))

/-- Dropping a whitespace run in front of any input. -/
theorem skipWs_app (w : List Char) (hw : wsRun w) (t : List Char) :
    skipWs (w ++ t) = skipWs t := by
  induction w with
  | nil => rfl
  | cons a as ih =>
    have ha : jsonWs a = true := hw a (by simp)
    simp only [List.cons_append, skipWs, List.dropWhile, ha]
    exact ih (fun x hx => hw x (by simp [hx]))

/-- `skipWs` is the identity when the head is not whitespace. -/
theorem skipWs_cons (c : Char) (t : List Char) (h : jsonWs c = false) :
    skipWs (c :: t) = c :: t := by
  simp only [skipWs, List.dropWhile, h]

/-- Indentation is whitespace. -/
theorem wsRun_pad (d : Nat) : wsRun (pad d) := by
  intro c hc
  rw [List.eq_of_mem_replicate hc]
  rfl

/-- Extending a whitespace run on the left. -/
theorem wsRun_cons (a : Char) (w : List Char) (ha : jsonWs a = true) (hw : wsRun w) :
    wsRun (a :: w) := by
  intro c hc
  rcases List.mem_cons.mp hc with h | h
  · rw [h]; exact ha
  · exact hw c h

/-- The empty whitespace run. -/
theorem wsRun_nil : wsRun [] := by intro c hc; cases hc

/-- Every serialized value starts with a character that is not
whitespace and closes no container. -/
theorem serVal_head (d : Nat) (j : Json) :
    ∃ c t, serVal d j = c :: t ∧ jsonWs c = false
      ∧ (c == ']') = false ∧ (c == '}') = false := by
  cases j with
  | num i =>
    cases i with
    | ofNat n =>
      obtain ⟨c, cs, hcons, hdig⟩ := natChars_head n
      obtain ⟨_, _, _, _, _, _, _, hrb, hcb, _, hws⟩ := digit_not_key c hdig
      exact ⟨c, cs, by rw [show serVal d (.num (.ofNat n)) = natChars n from rfl, hcons],
             hws, hrb, hcb⟩
    | negSucc n => exact ⟨'-', _, rfl, rfl, rfl, rfl⟩
  | null => exact ⟨'n', _, rfl, rfl, rfl, rfl⟩
  | bool b => cases b with
    | true => exact ⟨'t', _, rfl, rfl, rfl, rfl⟩
    | false => exact ⟨'f', _, rfl, rfl, rfl, rfl⟩
  | str s => exact ⟨'"', _, rfl, rfl, rfl, rfl⟩
  | arr xs => cases xs with
    | nil => exact ⟨'[', _, rfl, rfl, rfl, rfl⟩
    | cons x xs => exact ⟨'[', _, rfl, rfl, rfl, rfl⟩
  | obj fs => cases fs with
    | nil => exact ⟨'{', _, rfl, rfl, rfl, rfl⟩
    | cons f fs => exact ⟨'{', _, rfl, rfl, rfl, rfl⟩

/-- Reading the emitted digits of `n` accumulates exactly `n`. -/
theorem readDigits_natChars (n : Nat) : ∀ (acc : Nat) (rest : List Char),
    readDigits acc (natChars n ++ rest)
      = readDigits (acc * 10 ^ (natChars n).length + n) rest := by
  induction n using Nat.strong_induction_on with
  | _ n ih =>
    intro acc rest
    by_cases h : n < 10
    · rw [natChars, if_pos h]
      simp only [List.singleton_append, List.length_singleton, pow_one, readDigits,
        (digit_facts n h).1, if_true, (digit_facts n h).2]
      rw [show 48 + n - 48 = n from by omega]
      rfl
    · have hlen : (natChars n).length = (natChars (n / 10)).length + 1 := by
        rw [natChars, if_neg h]; simp
      have hrec : natChars n ++ rest
          = natChars (n / 10) ++ (digitCh (n % 10) :: rest) := by
        rw [natChars, if_neg h]; simp
      rw [hrec, ih (n / 10) (Nat.div_lt_self (by omega) (by omega))]
      have hm : n % 10 < 10 := by omega
      simp only [readDigits, (digit_facts _ hm).1, if_true, (digit_facts _ hm).2]
      rw [hlen, pow_succ]
      have hmod : n / 10 * 10 + n % 10 = n := by omega
      have : (acc * 10 ^ (natChars (n / 10)).length + n / 10) * 10 + (48 + n % 10 - 48)
          = acc * (10 ^ (natChars (n / 10)).length * 10) + n := by
        rw [show 48 + n % 10 - 48 = n % 10 from by omega]
        calc (acc * 10 ^ (natChars (n / 10)).length + n / 10) * 10 + n % 10
            = acc * (10 ^ (natChars (n / 10)).length * 10) + (n / 10 * 10 + n % 10) := by ring
          _ = acc * (10 ^ (natChars (n / 10)).length * 10) + n := by rw [hmod]
      rw [this]

/-- The digit reader stops at a non-extending continuation. -/
theorem readDigits_stop (acc : Nat) (rest : List Char) (h : numOk rest = true) :
    readDigits acc rest = (acc, rest) := by
  cases rest with
  | nil => rfl
  | cons c t =>
    simp only [numOk, Bool.not_eq_true', Bool.or_eq_false_iff] at h
    simp only [readDigits, h.1.1.1]
    rfl

/-- Reading the emitted digits of `n` from their first digit onward. -/
theorem readDigits_fromHead (n : Nat) (c : Char) (cs rest : List Char)
    (hcons : natChars n = c :: cs) (hdig : c.isDigit = true) (hrest : numOk rest = true) :
    readDigits (c.toNat - 48) (cs ++ rest) = (n, rest) := by
  have h0 := readDigits_natChars n 0 rest
  rw [hcons] at h0
  simp only [List.cons_append, readDigits, hdig, if_true, Nat.zero_mul, Nat.zero_add] at h0
  rw [show cs ++ rest = cs.append rest from rfl, h0, readDigits_stop _ _ hrest]

/-- Completion of a numeric token at a non-extending continuation. -/
theorem finishNum_stop (neg : Bool) (m : Nat) (rest : List Char) (h : numOk rest = true) :
    finishNum neg (m, rest) = some (.num (if neg then -(m : Int) else (m : Int)), rest) := by
  cases rest with
  | nil => rfl
  | cons c t =>
    simp only [numOk, Bool.not_eq_true', Bool.or_eq_false_iff] at h
    simp only [finishNum, h.1.1.2, h.1.2, h.2, Bool.or_self]
    rfl

/-- Length of an escaped character is at least one. -/
theorem escChar_len (c : Char) : 1 ≤ (escChar c).length := by
  unfold escChar
  split
  · simp
  · split
    · simp
    · split
      · simp
      · split
        · simp
        · split
          · simp
          · split
            · simp
            · split
              · simp
              · split
                · simp [hex4]
                · split
                  · simp
                  · split
                    · simp [hex4]
                    · simp [hex4]

/-- Escaping does not shorten a string body. -/
theorem escStr_len (cs : List Char) : cs.length ≤ (escStr cs).length := by
  induction cs with
  | nil => simp [escStr]
  | cons c cs ih =>
    have := escChar_len c
    simp only [escStr, List.length_append, List.length_cons]
    omega

/-- `skipWs` is idempotent. -/
theorem skipWs_idem (s : List Char) : skipWs (skipWs s) = skipWs s := by
  induction s with
  | nil => rfl
  | cons c t ih =>
    by_cases h : jsonWs c = true
    · simp only [skipWs, List.dropWhile, h, if_true]
      exact ih
    · have h' : jsonWs c = false := by simpa using h
      simp only [skipWs, List.dropWhile, h']

/-- Leading whitespace does not change a parse. -/
theorem parseVal_skip (n : Nat) (s : List Char) :
    parseVal (n + 1) s = parseVal (n + 1) (skipWs s) := by
  rw [parseVal, parseVal, skipWs_idem]

/-- Whitespace in front of a serialized value is dropped. -/
theorem skipWs_serVal (d : Nat) (j : Json) (w t : List Char) (hw : wsRun w) :
    skipWs (w ++ (serVal d j ++ t)) = serVal d j ++ t := by
  obtain ⟨c, cs, hcons, hws, _, _⟩ := serVal_head d j
  rw [skipWs_app w hw, hcons, List.cons_append, skipWs_cons _ _ hws]

/-- Token step: `null`. -/
theorem parseVal_tokNull (n : Nat) (r : List Char) :
    parseVal (n + 1) ('n' :: 'u' :: 'l' :: 'l' :: r) = some (.null, r) := by
  rw [parseVal]; rfl

/-- Token step: `true`. -/
theorem parseVal_tokTrue (n : Nat) (r : List Char) :
    parseVal (n + 1) ('t' :: 'r' :: 'u' :: 'e' :: r) = some (.bool true, r) := by
  rw [parseVal]; rfl

/-- Token step: `false`. -/
theorem parseVal_tokFalse (n : Nat) (r : List Char) :
    parseVal (n + 1) ('f' :: 'a' :: 'l' :: 's' :: 'e' :: r) = some (.bool false, r) := by
  rw [parseVal]; rfl

/-- Token step: a string literal delegates to `readStr`. -/
theorem parseVal_tokStr (n : Nat) (r : List Char) :
    parseVal (n + 1) ('"' :: r) =
      match readStr (r.length + 1) r with
      | some (cs, r2) => some (.str ⟨cs⟩, r2)
      | none => none := by
  rw [parseVal]; rfl

/-- Token step: an array opener. -/
theorem parseVal_tokArr (n : Nat) (r : List Char) :
    parseVal (n + 1) ('[' :: r) =
      (match skipWs r with
       | [] => none
       | c2 :: r2 => if c2 == ']' then some (.arr [], r2) else parseElems n (c2 :: r2) []) := by
  rw [parseVal]; rfl

/-- Token step: an object opener. -/
theorem parseVal_tokObj (n : Nat) (r : List Char) :
    parseVal (n + 1) ('{' :: r) =
      (match skipWs r with
       | [] => none
       | c2 :: r2 => if c2 == '}' then some (.obj [], r2) else parseFields n (c2 :: r2) []) := by
  rw [parseVal]; rfl

/-- Token step: a minus sign. -/
theorem parseVal_tokNeg (n : Nat) (r : List Char) :
    parseVal (n + 1) ('-' :: r) =
      (match r with
       | c2 :: r2 => if c2.isDigit then finishNum true (readDigits (c2.toNat - 48) r2) else none
       | [] => none) := by
  rw [parseVal]; rfl

/-- Token step: a leading digit. -/
theorem parseVal_tokDigit (n : Nat) (c : Char) (r : List Char) (hdig : c.isDigit = true) :
    parseVal (n + 1) (c :: r) = finishNum false (readDigits (c.toNat - 48) r) := by
  obtain ⟨k1, k2, k3, k4, k5, k6, k7, _, _, _, kws⟩ := digit_not_key c hdig
  rw [parseVal, skipWs_cons c r kws]
  simp only [k1, k2, k3, k4, k5, k6, k7, hdig, Bool.false_eq_true, if_false, if_true]

/-- Serialized values are nonempty. -/
theorem serVal_pos (d : Nat) (j : Json) : 1 ≤ (serVal d j).length := by
  obtain ⟨c, t, hcons, _, _, _⟩ := serVal_head d j
  rw [hcons]
  simp

/-- Dropping one whitespace character. -/
theorem skipWs_ws_cons (c : Char) (t : List Char) (h : jsonWs c = true) :
    skipWs (c :: t) = skipWs t := by
  simp only [skipWs, List.dropWhile, h, if_true]

/-- Unfolded serialized form of a non-empty array. -/
theorem serArr_cons (d : Nat) (x : Json) (xs : List Json) :
    serVal d (.arr (x :: xs))
      = '[' :: ('\n' :: (pad (d + 1) ++ (serVal (d + 1) x ++ (serTail (d + 1) xs
          ++ ('\n' :: (pad d ++ [']'])))))) := by
  rw [show serVal d (.arr (x :: xs))
        = '[' :: '\n' :: pad (d + 1) ++ serVal (d + 1) x ++ serTail (d + 1) xs
          ++ '\n' :: pad d ++ [']'] from rfl]
  simp

/-- Unfolded serialized form of a non-empty object. -/
theorem serObj_cons (d : Nat) (f : String × Json) (fs : List (String × Json)) :
    serVal d (.obj (f :: fs))
      = '{' :: ('\n' :: (pad (d + 1) ++ (serField (d + 1) f ++ (serFTail (d + 1) fs
          ++ ('\n' :: (pad d ++ ['}'])))))) := by
  rw [show serVal d (.obj (f :: fs))
        = '{' :: '\n' :: pad (d + 1) ++ serField (d + 1) f ++ serFTail (d + 1) fs
          ++ '\n' :: pad d ++ ['}'] from rfl]
  simp

/-- Unfolded serialized form of a later array item. -/
theorem serTail_cons (d : Nat) (x : Json) (xs : List Json) :
    serTail d (x :: xs)
      = ',' :: ('\n' :: (pad d ++ (serVal d x ++ serTail d xs))) := by
  rw [show serTail d (x :: xs) = ',' :: '\n' :: pad d ++ serVal d x ++ serTail d xs from rfl]
  simp

/-- Unfolded serialized form of one object member. -/
theorem serField_eq (d : Nat) (k : String) (v : Json) :
    serField d (k, v) = '"' :: (escStr k.data ++ ('"' :: ':' :: ' ' :: serVal d v)) := by
  rw [show serField d (k, v)
        = '"' :: escStr k.data ++ '"' :: ':' :: ' ' :: serVal d v from rfl]
  simp

/-- Unfolded serialized form of a later object member. -/
theorem serFTail_cons (d : Nat) (f : String × Json) (fs : List (String × Json)) :
    serFTail d (f :: fs)
      = ',' :: ('\n' :: (pad d ++ (serField d f ++ serFTail d fs))) := by
  rw [show serFTail d (f :: fs) = ',' :: '\n' :: pad d ++ serField d f ++ serFTail d fs from rfl]
  simp

mutual
/-- Parsing a serialized value, after any leading whitespace run,
recovers the value and leaves the continuation untouched. -/
theorem rtVal : ∀ (j : Json) (d fuel : Nat) (w rest : List Char),
    wsRun w → numOk rest = true → (serVal d j).length < fuel →
    parseVal fuel (w ++ (serVal d j ++ rest)) = some (j, rest)
  | .null, d, fuel, w, rest => fun hw _ hfuel => by
    cases fuel with
    | zero => exact absurd hfuel (Nat.not_lt_zero _)
    | succ n =>
      rw [parseVal_skip, skipWs_serVal d .null w rest hw]
      exact parseVal_tokNull n rest
  | .bool true, d, fuel, w, rest => fun hw _ hfuel => by
    cases fuel with
    | zero => exact absurd hfuel (Nat.not_lt_zero _)
    | succ n =>
      rw [parseVal_skip, skipWs_serVal d (.bool true) w rest hw]
      exact parseVal_tokTrue n rest
  | .bool false, d, fuel, w, rest => fun hw _ hfuel => by
    cases fuel with
    | zero => exact absurd hfuel (Nat.not_lt_zero _)
    | succ n =>
      rw [parseVal_skip, skipWs_serVal d (.bool false) w rest hw]
      exact parseVal_tokFalse n rest
  | .num (.ofNat m), d, fuel, w, rest => fun hw hrest hfuel => by
    cases fuel with
    | zero => exact absurd hfuel (Nat.not_lt_zero _)
    | succ n =>
      rw [parseVal_skip, skipWs_serVal d (.num (.ofNat m)) w rest hw]
      obtain ⟨c, cs, hcons, hdig⟩ := natChars_head m
      rw [show serVal d (.num (.ofNat m)) = natChars m from rfl, hcons, List.cons_append,
          parseVal_tokDigit n c _ hdig, readDigits_fromHead m c cs rest hcons hdig hrest,
          finishNum_stop false m rest hrest]
      rfl
  | .num (.negSucc m), d, fuel, w, rest => fun hw hrest hfuel => by
    cases fuel with
    | zero => exact absurd hfuel (Nat.not_lt_zero _)
    | succ n =>
      rw [parseVal_skip, skipWs_serVal d (.num (.negSucc m)) w rest hw]
      obtain ⟨c, cs, hcons, hdig⟩ := natChars_head (m + 1)
      rw [show serVal d (.num (.negSucc m)) = '-' :: natChars (m + 1) from rfl,
          List.cons_append, parseVal_tokNeg n _, hcons, List.cons_append]
      simp only [hdig, if_true]
      rw [readDigits_fromHead (m + 1) c cs rest hcons hdig hrest,
          finishNum_stop true (m + 1) rest hrest]
      have h1 : (((m + 1 : Nat) : Int)) = (m : Int) + 1 := by push_cast; ring
      rw [if_pos rfl, h1, ← Int.negSucc_eq]
  | .str s, d, fuel, w, rest => fun hw _ hfuel => by
    cases fuel with
    | zero => exact absurd hfuel (Nat.not_lt_zero _)
    | succ n =>
      rw [parseVal_skip, skipWs_serVal d (.str s) w rest hw]
      rw [show serVal d (.str s) ++ rest = '"' :: (escStr s.data ++ '"' :: rest) from by
            rw [show serVal d (.str s) = '"' :: escStr s.data ++ ['"'] from rfl]; simp]
      rw [parseVal_tokStr n _]
      rw [readStr_escStr s.data _ rest (by
            have h1 := escStr_len s.data
            simp only [List.length_append, List.length_cons]
            omega)]
  | .arr [], d, fuel, w, rest => fun hw _ hfuel => by
    cases fuel with
    | zero => exact absurd hfuel (Nat.not_lt_zero _)
    | succ n =>
      rw [parseVal_skip, skipWs_serVal d (.arr []) w rest hw]
      rw [show serVal d (.arr []) ++ rest = '[' :: ']' :: rest from rfl]
      rw [parseVal_tokArr n _, skipWs_cons ']' rest (by decide)]
      rfl
  | .arr (x :: xs), d, fuel, w, rest => fun hw _ hfuel => by
    cases fuel with
    | zero => exact absurd hfuel (Nat.not_lt_zero _)
    | succ n =>
      rw [parseVal_skip, skipWs_serVal d (.arr (x :: xs)) w rest hw, serArr_cons]
      simp only [List.cons_append, List.append_assoc, List.singleton_append,
        List.nil_append]
      rw [parseVal_tokArr n _]
      obtain ⟨c, t, hcons, hws, hrb, _⟩ := serVal_head (d + 1) x
      have hsk : skipWs ('\n' :: (pad (d + 1) ++ (serVal (d + 1) x ++ (serTail (d + 1) xs
          ++ ('\n' :: (pad d ++ (']' :: rest)))))))
          = c :: (t ++ (serTail (d + 1) xs ++ ('\n' :: (pad d ++ (']' :: rest))))) := by
        rw [skipWs_ws_cons _ _ (by decide), skipWs_app _ (wsRun_pad (d + 1)), hcons,
            List.cons_append, skipWs_cons _ _ hws]
      simp only [hsk, hrb, Bool.false_eq_true, if_false]
      rw [show c :: (t ++ (serTail (d + 1) xs ++ ('\n' :: (pad d ++ (']' :: rest)))))
            = serVal (d + 1) x ++ (serTail (d + 1) xs ++ ('\n' :: (pad d ++ (']' :: rest))))
            from by rw [hcons]; simp]
      have hlen : (serVal (d + 1) x).length + (serTail (d + 1) xs).length + 1 < n := by
        rw [serArr_cons] at hfuel
        simp only [List.length_cons, List.length_append, pad, List.length_replicate] at hfuel
        omega
      have key := rtElems x xs [] (d + 1) d n [] rest wsRun_nil hlen
      simp only [List.nil_append, List.reverse_nil] at key
      exact key
  | .obj [], d, fuel, w, rest => fun hw _ hfuel => by
    cases fuel with
    | zero => exact absurd hfuel (Nat.not_lt_zero _)
    | succ n =>
      rw [parseVal_skip, skipWs_serVal d (.obj []) w rest hw]
      rw [show serVal d (.obj []) ++ rest = '{' :: '}' :: rest from rfl]
      rw [parseVal_tokObj n _, skipWs_cons '}' rest (by decide)]
      rfl
  | .obj ((k, v) :: fs), d, fuel, w, rest => fun hw _ hfuel => by
    cases fuel with
    | zero => exact absurd hfuel (Nat.not_lt_zero _)
    | succ n =>
      rw [parseVal_skip, skipWs_serVal d (.obj ((k, v) :: fs)) w rest hw, serObj_cons]
      simp only [List.cons_append, List.append_assoc, List.singleton_append,
        List.nil_append]
      rw [parseVal_tokObj n _]
      have hsk : skipWs ('\n' :: (pad (d + 1) ++ (serField (d + 1) (k, v)
          ++ (serFTail (d + 1) fs ++ ('\n' :: (pad d ++ ('}' :: rest)))))))
          = '"' :: ((escStr k.data ++ ('"' :: ':' :: ' ' :: serVal (d + 1) v))
              ++ (serFTail (d + 1) fs ++ ('\n' :: (pad d ++ ('}' :: rest))))) := by
        rw [skipWs_ws_cons _ _ (by decide), skipWs_app _ (wsRun_pad (d + 1)), serField_eq,
            List.cons_append, skipWs_cons _ _ (by decide)]
      simp only [hsk, show (('"' : Char) == '}') = false from by decide,
        Bool.false_eq_true, if_false]
      rw [show '"' :: ((escStr k.data ++ ('"' :: ':' :: ' ' :: serVal (d + 1) v))
            ++ (serFTail (d + 1) fs ++ ('\n' :: (pad d ++ ('}' :: rest)))))
            = serField (d + 1) (k, v)
              ++ (serFTail (d + 1) fs ++ ('\n' :: (pad d ++ ('}' :: rest))))
            from by rw [serField_eq]; simp]
      have hlen : (serField (d + 1) (k, v)).length + (serFTail (d + 1) fs).length + 1 < n := by
        rw [serObj_cons] at hfuel
        simp only [List.length_cons, List.length_append, pad, List.length_replicate] at hfuel
        omega
      have key := rtFields (k, v) fs [] (d + 1) d n [] rest wsRun_nil hlen
      simp only [List.nil_append, List.reverse_nil] at key
      exact key
  termination_by j _ _ _ _ => sizeOf j

/-- Parsing the serialized items of a non-empty array consumes them and
the closing bracket. -/
theorem rtElems : ∀ (x : Json) (xs : List Json) (acc : List Json) (d e fuel : Nat)
    (w rest : List Char), wsRun w →
    (serVal d x).length + (serTail d xs).length + 1 < fuel →
    parseElems fuel (w ++ (serVal d x ++ (serTail d xs ++ ('\n' :: (pad e ++ (']' :: rest)))))) acc
      = some (.arr (acc.reverse ++ x :: xs), rest)
  | x, [], acc, d, e, fuel, w, rest => fun hw hfuel => by
    cases fuel with
    | zero => exact absurd hfuel (Nat.not_lt_zero _)
    | succ m =>
      rw [parseElems]
      simp only [show serTail d ([] : List Json) = [] from rfl, List.nil_append] at hfuel ⊢
      have hv := rtVal x d m w ('\n' :: (pad e ++ (']' :: rest))) hw rfl
        (by simp only [show serTail d ([] : List Json) = [] from rfl, List.length_nil] at hfuel
            omega)
      have hclose : skipWs ('\n' :: (pad e ++ (']' :: rest))) = ']' :: rest := by
        rw [skipWs_ws_cons _ _ (by decide), skipWs_app _ (wsRun_pad e),
            skipWs_cons _ _ (by decide)]
      simp only [hv, hclose, show ((']' : Char) == ',') = false from by decide,
        show ((']' : Char) == ']') = true from by decide, Bool.false_eq_true, if_false, if_true]
      simp
  | x, y :: ys, acc, d, e, fuel, w, rest => fun hw hfuel => by
    cases fuel with
    | zero => exact absurd hfuel (Nat.not_lt_zero _)
    | succ m =>
      rw [parseElems]
      have hx : (serVal d x).length < m := by
        rw [serTail_cons] at hfuel
        simp only [List.length_cons, List.length_append, pad, List.length_replicate] at hfuel
        omega
      have hv := rtVal x d m w (serTail d (y :: ys) ++ ('\n' :: (pad e ++ (']' :: rest)))) hw
        (by rw [serTail_cons]; rfl) hx
      have hsk : skipWs (serTail d (y :: ys) ++ ('\n' :: (pad e ++ (']' :: rest))))
          = ',' :: ('\n' :: (pad d ++ (serVal d y ++ (serTail d ys
              ++ ('\n' :: (pad e ++ (']' :: rest))))))) := by
        rw [serTail_cons]
        simp only [List.cons_append, List.append_assoc]
        rw [skipWs_cons _ _ (by decide)]
      simp only [hv, hsk, show ((',' : Char) == ',') = true from by decide, if_true]
      have hsub : (serVal d y).length + (serTail d ys).length + 1 < m := by
        have hx1 := serVal_pos d x
        rw [serTail_cons] at hfuel
        simp only [List.length_cons, List.length_append, pad, List.length_replicate] at hfuel
        omega
      have key := rtElems y ys (x :: acc) d e m ('\n' :: pad d) rest
        (wsRun_cons _ _ (by decide) (wsRun_pad d)) hsub
      simp only [List.cons_append, List.append_assoc] at key
      rw [key]
      simp
  termination_by x xs _ _ _ _ _ _ => sizeOf x + sizeOf xs

/-- Parsing the serialized members of a non-empty object consumes them
and the closing brace. -/
theorem rtFields : ∀ (f : String × Json) (fs : List (String × Json))
    (acc : List (String × Json)) (d e fuel : Nat) (w rest : List Char), wsRun w →
    (serField d f).length + (serFTail d fs).length + 1 < fuel →
    parseFields fuel
        (w ++ (serField d f ++ (serFTail d fs ++ ('\n' :: (pad e ++ ('}' :: rest)))))) acc
      = some (.obj (acc.reverse ++ f :: fs), rest)
  | (k, v), [], acc, d, e, fuel, w, rest => fun hw hfuel => by
    cases fuel with
    | zero => exact absurd hfuel (Nat.not_lt_zero _)
    | succ m =>
      rw [parseFields]
      simp only [show serFTail d ([] : List (String × Json)) = [] from rfl,
        List.nil_append] at hfuel ⊢
      have hsk : skipWs (w ++ (serField d (k, v) ++ ('\n' :: (pad e ++ ('}' :: rest)))))
          = '"' :: (escStr k.data ++ ('"' :: (':' :: (' ' :: (serVal d v
              ++ ('\n' :: (pad e ++ ('}' :: rest)))))))) := by
        rw [skipWs_app w hw, serField_eq, List.cons_append, skipWs_cons _ _ (by decide)]
        simp
      simp only [hsk, show (('"' : Char) == '"') = true from by decide, if_true]
      rw [readStr_escStr k.data _ _ (by
            have h1 := escStr_len k.data
            simp only [List.length_append, List.length_cons]
            omega)]
      have hc : skipWs (':' :: (' ' :: (serVal d v ++ ('\n' :: (pad e ++ ('}' :: rest))))))
          = ':' :: (' ' :: (serVal d v ++ ('\n' :: (pad e ++ ('}' :: rest))))) :=
        skipWs_cons _ _ (by decide)
      simp only [hc, show ((':' : Char) == ':') = true from by decide, if_true]
      have hlenv : (serVal d v).length < m := by
        rw [serField_eq] at hfuel
        simp only [List.length_cons, List.length_append] at hfuel
        omega
      have hv := rtVal v d m [' '] ('\n' :: (pad e ++ ('}' :: rest)))
        (wsRun_cons _ _ (by decide) wsRun_nil) rfl hlenv
      simp only [List.singleton_append] at hv
      have hcl : skipWs ('\n' :: (pad e ++ ('}' :: rest))) = '}' :: rest := by
        rw [skipWs_ws_cons _ _ (by decide), skipWs_app _ (wsRun_pad e),
            skipWs_cons _ _ (by decide)]
      simp only [hv, hcl, show (('}' : Char) == ',') = false from by decide,
        show (('}' : Char) == '}') = true from by decide, Bool.false_eq_true, if_false, if_true]
      simp [strEta]
  | (k, v), g :: gs, acc, d, e, fuel, w, rest => fun hw hfuel => by
    cases fuel with
    | zero => exact absurd hfuel (Nat.not_lt_zero _)
    | succ m =>
      rw [parseFields]
      have hsk : skipWs (w ++ (serField d (k, v) ++ (serFTail d (g :: gs)
          ++ ('\n' :: (pad e ++ ('}' :: rest))))))
          = '"' :: (escStr k.data ++ ('"' :: (':' :: (' ' :: (serVal d v
              ++ (serFTail d (g :: gs) ++ ('\n' :: (pad e ++ ('}' :: rest))))))))) := by
        rw [skipWs_app w hw, serField_eq, List.cons_append, skipWs_cons _ _ (by decide)]
        simp
      simp only [hsk, show (('"' : Char) == '"') = true from by decide, if_true]
      rw [readStr_escStr k.data _ _ (by
            have h1 := escStr_len k.data
            simp only [List.length_append, List.length_cons]
            omega)]
      have hc : skipWs (':' :: (' ' :: (serVal d v ++ (serFTail d (g :: gs)
          ++ ('\n' :: (pad e ++ ('}' :: rest)))))))
          = ':' :: (' ' :: (serVal d v ++ (serFTail d (g :: gs)
              ++ ('\n' :: (pad e ++ ('}' :: rest)))))) :=
        skipWs_cons _ _ (by decide)
      simp only [hc, show ((':' : Char) == ':') = true from by decide, if_true]
      have hlenv : (serVal d v).length < m := by
        rw [serField_eq] at hfuel
        simp only [List.length_cons, List.length_append] at hfuel
        omega
      have hv := rtVal v d m [' ']
        (serFTail d (g :: gs) ++ ('\n' :: (pad e ++ ('}' :: rest))))
        (wsRun_cons _ _ (by decide) wsRun_nil) (by rw [serFTail_cons]; rfl) hlenv
      simp only [List.singleton_append] at hv
      have hsk2 : skipWs (serFTail d (g :: gs) ++ ('\n' :: (pad e ++ ('}' :: rest))))
          = ',' :: ('\n' :: (pad d ++ (serField d g ++ (serFTail d gs
              ++ ('\n' :: (pad e ++ ('}' :: rest))))))) := by
        rw [serFTail_cons]
        simp only [List.cons_append, List.append_assoc]
        rw [skipWs_cons _ _ (by decide)]
      simp only [hv, hsk2, show ((',' : Char) == ',') = true from by decide, if_true]
      have hsub : (serField d g).length + (serFTail d gs).length + 1 < m := by
        have hv1 := serVal_pos d v
        rw [serField_eq, serFTail_cons] at hfuel
        simp only [List.length_cons, List.length_append, pad, List.length_replicate] at hfuel
        omega
      have key := rtFields g gs ((⟨k.data⟩, v) :: acc) d e m ('\n' :: pad d) rest
        (wsRun_cons _ _ (by decide) (wsRun_pad d)) hsub
      simp only [List.cons_append, List.append_assoc] at key
      rw [key]
      simp [strEta]
  termination_by f fs _ _ _ _ _ _ => sizeOf f + sizeOf fs
end

/-- Serializing any document with the model of `json.dump(·, indent=2)`
and reading it back with the model of `json.load` is the identity. -/
theorem loads_dumps (j : Json) : loads (dumps j) = some j := by
  have h := rtVal j 0 ((dumps j).length + 1) [] [] wsRun_nil rfl
    (by rw [show dumps j = serVal 0 j from rfl]; omega)
  simp only [List.nil_append, List.append_nil] at h
  rw [show loads (dumps j)
        = (match parseVal ((dumps j).length + 1) (dumps j) with
           | some (v, r) => if skipWs r = [] then some v else none
           | none => none) from rfl]
  rw [show dumps j = serVal 0 j from rfl] at h ⊢
  rw [h]
  rfl

/-! ## Claim theorems -/

/-- C6.  State round-trip: for every JSON document, saving it via
save-state and then loading via load-state returns a structurally
identical document, and loading when no state has ever been saved
returns exactly `{"animals": [], "familyLines": []}`. -/
theorem C6_state_roundtrip :
    (∀ (st : App.StateFile) (j : Json),
        App.load_state (App.save_state st j).fst = .json j 200)
    ∧ App.load_state none
        = .json (.obj [("animals", .arr []), ("familyLines", .arr [])]) 200 := by
  constructor
  · intro st j
    rw [show (App.save_state st j).fst = some (dumps j) from by cases st <;> rfl]
    rw [show App.load_state (some (dumps j))
          = (match loads (dumps j) with
             | some j2 => App.Outcome.json j2 200
             | none => App.Outcome.json (App.errBody "Invalid JSON in state file") 500)
          from rfl]
    rw [loads_dumps]
  · rfl

/-- C8.  MIME inference: `get_image_mime_type` maps the lowercased
extension through the fixed table `.jpg/.jpeg → image/jpeg`,
`.png → image/png`, `.gif → image/gif`, `.webp → image/webp`, and
returns `image/jpeg` for every extension not in the table, never
failing; in particular `.webp → image/webp` and the unlisted
`.bmp → image/jpeg`. -/
theorem C8_mime_inference :
    (∀ p : String, Cli.asciiLower (Cli.pathSuffix p) = ".jpg"
        → Cli.get_image_mime_type p = "image/jpeg")
    ∧ (∀ p : String, Cli.asciiLower (Cli.pathSuffix p) = ".jpeg"
        → Cli.get_image_mime_type p = "image/jpeg")
    ∧ (∀ p : String, Cli.asciiLower (Cli.pathSuffix p) = ".png"
        → Cli.get_image_mime_type p = "image/png")
    ∧ (∀ p : String, Cli.asciiLower (Cli.pathSuffix p) = ".gif"
        → Cli.get_image_mime_type p = "image/gif")
    ∧ (∀ p : String, Cli.asciiLower (Cli.pathSuffix p) = ".webp"
        → Cli.get_image_mime_type p = "image/webp")
    ∧ (∀ p : String,
        Cli.asciiLower (Cli.pathSuffix p) ∉ [".jpg", ".jpeg", ".png", ".gif", ".webp"]
        → Cli.get_image_mime_type p = "image/jpeg")
    ∧ Cli.get_image_mime_type "photo.webp" = "image/webp"
    ∧ Cli.get_image_mime_type "photo.bmp" = "image/jpeg" := by
  refine ⟨?_, ?_, ?_, ?_, ?_, ?_, rfl, rfl⟩
  · intro p h; rw [Cli.get_image_mime_type, h]; rfl
  · intro p h; rw [Cli.get_image_mime_type, h]; rfl
  · intro p h; rw [Cli.get_image_mime_type, h]; rfl
  · intro p h; rw [Cli.get_image_mime_type, h]; rfl
  · intro p h; rw [Cli.get_image_mime_type, h]; rfl
  · intro p h
    simp only [List.mem_cons, List.not_mem_nil, or_false, not_or] at h
    obtain ⟨h1, h2, h3, h4, h5⟩ := h
    have e1 : (Cli.asciiLower (Cli.pathSuffix p) == (".jpg" : String)) = false := by
      rw [beq_eq_false_iff_ne]; exact h1
    have e2 : (Cli.asciiLower (Cli.pathSuffix p) == (".jpeg" : String)) = false := by
      rw [beq_eq_false_iff_ne]; exact h2
    have e3 : (Cli.asciiLower (Cli.pathSuffix p) == (".png" : String)) = false := by
      rw [beq_eq_false_iff_ne]; exact h3
    have e4 : (Cli.asciiLower (Cli.pathSuffix p) == (".gif" : String)) = false := by
      rw [beq_eq_false_iff_ne]; exact h4
    have e5 : (Cli.asciiLower (Cli.pathSuffix p) == (".webp" : String)) = false := by
      rw [beq_eq_false_iff_ne]; exact h5
    rw [Cli.get_image_mime_type]
    simp only [Cli.mime_types, List.lookup, e1, e2, e3, e4, e5]
    rfl

/-- C8 witness: the table rows and the default, at concrete paths. -/
theorem C8_mime_inference_witness :
    Cli.asciiLower (Cli.pathSuffix "x/a.WEBP") = ".webp"
    ∧ Cli.get_image_mime_type "x/a.WEBP" = "image/webp"
    ∧ Cli.asciiLower (Cli.pathSuffix "x/a.bmp") ∉ [".jpg", ".jpeg", ".png", ".gif", ".webp"]
    ∧ Cli.get_image_mime_type "x/a.bmp" = "image/jpeg" :=
  ⟨by decide, C8_mime_inference.2.2.2.2.1 "x/a.WEBP" (by decide),
   by decide, C8_mime_inference.2.2.2.2.2.1 "x/a.bmp" (by decide)⟩

/-- A run of non-matching media items is skipped by the scan. -/
theorem scanImages_skip (pre : List ImageItem) (l : List ImageItem)
    (hpre : ∀ i ∈ pre, matchItem i = false) :
    scanImages (pre ++ l) = scanImages l := by
  induction pre with
  | nil => rfl
  | cons i is ih =>
    have hi : matchItem i = false := hpre i (by simp)
    rw [List.cons_append,
        show scanImages (i :: (is ++ l))
          = if matchItem i then
              (match afterFirst ',' i.url.data with
               | some payload => .ok (some ⟨payload⟩)
               | none => .error ())
            else scanImages (is ++ l) from rfl,
        if_neg (by rw [hi]; exact fun hEq => nomatch hEq)]
    exact ih (fun i2 hi2 => hpre i2 (by simp [hi2]))

/-- A media list with no matching item scans to an empty image. -/
theorem scanImages_none (l : List ImageItem) (h : ∀ i ∈ l, matchItem i = false) :
    scanImages l = .ok none := by
  have := scanImages_skip l [] h
  simpa using this

/-- C1.  Response extraction: the extractor takes the first candidate
message, returns its truthy free text as the textual field, and scans
the media list in order; the first item that is an inline image with a
`data:image` URI yields the payload after the first comma; no matching
item yields an empty image (not an error); no candidate messages yield
two empty fields; and the concrete example response with text `"Name"`
and URI `data:image/png;base64,AAAA` extracts to image `AAAA`, text
`"Name"`. -/
theorem C1_response_extraction :
    (∀ r : Response, r.choices = []
        → App.extract_image_from_response r = .ok (none, none))
    ∧ (∀ (r : Response) (ch : Choice) (tl : List Choice) (m : Message)
         (res : Option String × Option String),
        r.choices = ch :: tl → ch.message = some m
        → App.extract_image_from_response r = .ok res → res.snd = textOf m)
    ∧ (∀ (r : Response) (ch : Choice) (tl : List Choice) (m : Message)
         (imgs : List ImageItem),
        r.choices = ch :: tl → ch.message = some m → m.images = some imgs
        → (∀ i ∈ imgs, matchItem i = false)
        → App.extract_image_from_response r = .ok (none, textOf m))
    ∧ (∀ (r : Response) (ch : Choice) (tl : List Choice) (m : Message)
         (pre : List ImageItem) (i : ImageItem) (post : List ImageItem) (payload : List Char),
        r.choices = ch :: tl → ch.message = some m → m.images = some (pre ++ i :: post)
        → (∀ i2 ∈ pre, matchItem i2 = false) → matchItem i = true
        → afterFirst ',' i.url.data = some payload
        → App.extract_image_from_response r = .ok (some ⟨payload⟩, textOf m))
    ∧ App.extract_image_from_response respName = .ok (some "AAAA", some "Name") := by
  refine ⟨?_, ?_, ?_, ?_, rfl⟩
  · intro r hr
    rw [show App.extract_image_from_response r
          = (match r.choices with
             | [] => .ok (none, none)
             | ch :: _ =>
               match ch.message with
               | none => .ok (none, none)
               | some message =>
                 match message.images with
                 | none => .ok (none, textOf message)
                 | some imgs =>
                   match scanImages imgs with
                   | .ok image_data => .ok (image_data, textOf message)
                   | .error e => .error e) from rfl, hr]
  · intro r ch tl m res hr hm hres
    rw [show App.extract_image_from_response r
          = (match r.choices with
             | [] => .ok (none, none)
             | ch :: _ =>
               match ch.message with
               | none => .ok (none, none)
               | some message =>
                 match message.images with
                 | none => .ok (none, textOf message)
                 | some imgs =>
                   match scanImages imgs with
                   | .ok image_data => .ok (image_data, textOf message)
                   | .error e => .error e) from rfl] at hres
    cases himg : m.images with
    | none =>
      simp only [hr, hm, himg] at hres
      cases hres
      rfl
    | some imgs =>
      cases hscan : scanImages imgs with
      | ok d =>
        simp only [hr, hm, himg, hscan] at hres
        cases hres
        rfl
      | error e =>
        simp only [hr, hm, himg, hscan] at hres
        cases hres
  · intro r ch tl m imgs hr hm himg hnone
    rw [show App.extract_image_from_response r
          = (match r.choices with
             | [] => .ok (none, none)
             | ch :: _ =>
               match ch.message with
               | none => .ok (none, none)
               | some message =>
                 match message.images with
                 | none => .ok (none, textOf message)
                 | some imgs =>
                   match scanImages imgs with
                   | .ok image_data => .ok (image_data, textOf message)
                   | .error e => .error e) from rfl]
    simp only [hr, hm, himg, scanImages_none imgs hnone]
  · intro r ch tl m pre i post payload hr hm himg hpre hi hcomma
    rw [show App.extract_image_from_response r
          = (match r.choices with
             | [] => .ok (none, none)
             | ch :: _ =>
               match ch.message with
               | none => .ok (none, none)
               | some message =>
                 match message.images with
                 | none => .ok (none, textOf message)
                 | some imgs =>
                   match scanImages imgs with
                   | .ok image_data => .ok (image_data, textOf message)
                   | .error e => .error e) from rfl]
    have hscan : scanImages (pre ++ i :: post) = .ok (some ⟨payload⟩) := by
      rw [scanImages_skip pre (i :: post) hpre,
          show scanImages (i :: post)
            = if matchItem i then
                (match afterFirst ',' i.url.data with
                 | some payload => .ok (some ⟨payload⟩)
                 | none => .error ())
              else scanImages post from rfl,
          if_pos (by rw [hi]), hcomma]
    simp only [hr, hm, himg, hscan]

/-- C1 witness: the fourth conjunct applied to the concrete response. -/
theorem C1_response_extraction_witness :
    respName.choices
      = ({ message := some { content := some "Name", images := some [itemPng] } } : Choice) :: []
    ∧ matchItem itemPng = true
    ∧ afterFirst ',' itemPng.url.data = some "AAAA".data
    ∧ App.extract_image_from_response respName = .ok (some "AAAA", some "Name") := by
  refine ⟨rfl, rfl, rfl, ?_⟩
  exact C1_response_extraction.2.2.2.1 respName _ []
    { content := some "Name", images := some [itemPng] } [] itemPng [] "AAAA".data
    rfl rfl rfl (fun i2 hi2 => absurd hi2 (List.not_mem_nil _)) rfl rfl

/-- A run of non-matching media items is skipped by the CLI save loop. -/
theorem scanSave_skip (fs : FS) (out : String) (pre l : List ImageItem)
    (hpre : ∀ i ∈ pre, matchItem i = false) :
    Cli.scanSave fs out (pre ++ l) = Cli.scanSave fs out l := by
  induction pre with
  | nil => rfl
  | cons i is ih =>
    have hi : matchItem i = false := hpre i (by simp)
    rw [List.cons_append,
        show Cli.scanSave fs out (i :: (is ++ l))
          = if matchItem i then
              (match afterFirst ',' i.url.data with
               | none => (fs, .crash indexErrorMsg)
               | some payload =>
                 match b64decode ⟨payload⟩ with
                 | none => (fsWrite fs out [], .crash base64ErrorMsg)
                 | some bytes => (fsWrite fs out bytes, .ret true))
            else Cli.scanSave fs out (is ++ l) from rfl,
        if_neg (by rw [hi]; exact fun hEq => nomatch hEq)]
    exact ih (fun i2 hi2 => hpre i2 (by simp [hi2]))

/-- C9.  Extractor partiality on malformed data URIs: when the first
matching media item's URI contains no comma, the split-subscript step
has no second component, so the scan raises `IndexError` instead of
returning — through the web extractor (an `.error` escapes) and through
the CLI save loop (the process crashes); and the extractor does return
a value whenever every matching item's URI contains a comma. -/
theorem C9_extractor_partiality :
    (∀ (pre : List ImageItem) (i : ImageItem) (post : List ImageItem),
        (∀ i2 ∈ pre, matchItem i2 = false) → matchItem i = true
        → afterFirst ',' i.url.data = none
        → scanImages (pre ++ i :: post) = .error ())
    ∧ (∀ (r : Response) (ch : Choice) (tl : List Choice) (m : Message)
         (pre : List ImageItem) (i : ImageItem) (post : List ImageItem),
        r.choices = ch :: tl → ch.message = some m → m.images = some (pre ++ i :: post)
        → (∀ i2 ∈ pre, matchItem i2 = false) → matchItem i = true
        → afterFirst ',' i.url.data = none
        → App.extract_image_from_response r = .error ())
    ∧ (∀ (fs : FS) (out : String) (pre : List ImageItem) (i : ImageItem)
         (post : List ImageItem),
        (∀ i2 ∈ pre, matchItem i2 = false) → matchItem i = true
        → afterFirst ',' i.url.data = none
        → Cli.scanSave fs out (pre ++ i :: post) = (fs, .crash indexErrorMsg))
    ∧ (∀ imgs : List ImageItem,
        (∀ i ∈ imgs, matchItem i = true → afterFirst ',' i.url.data ≠ none)
        → ∃ d, scanImages imgs = .ok d)
    ∧ (∀ r : Response,
        (∀ i ∈ respImages r, matchItem i = true → afterFirst ',' i.url.data ≠ none)
        → ∃ p, App.extract_image_from_response r = .ok p) := by
  have hstep : ∀ (i : ImageItem) (post : List ImageItem), scanImages (i :: post)
      = if matchItem i then
          (match afterFirst ',' i.url.data with
           | some payload => .ok (some ⟨payload⟩)
           | none => .error ())
        else scanImages post := fun _ _ => rfl
  have ha : ∀ (pre : List ImageItem) (i : ImageItem) (post : List ImageItem),
      (∀ i2 ∈ pre, matchItem i2 = false) → matchItem i = true
      → afterFirst ',' i.url.data = none
      → scanImages (pre ++ i :: post) = .error () := by
    intro pre i post hpre hi hcomma
    rw [scanImages_skip pre _ hpre, hstep, if_pos (by rw [hi]), hcomma]
  have hd : ∀ imgs : List ImageItem,
      (∀ i ∈ imgs, matchItem i = true → afterFirst ',' i.url.data ≠ none)
      → ∃ d, scanImages imgs = .ok d := by
    intro imgs h
    induction imgs with
    | nil => exact ⟨none, rfl⟩
    | cons i is ih =>
      by_cases hi : matchItem i = true
      · cases hcomma : afterFirst ',' i.url.data with
        | none => exact absurd hcomma (h i (by simp) hi)
        | some payload =>
          exact ⟨some ⟨payload⟩, by rw [hstep, if_pos (by rw [hi]), hcomma]⟩
      · have hi' : matchItem i = false := by simpa using hi
        obtain ⟨d, hdd⟩ := ih (fun i2 hi2 hm => h i2 (by simp [hi2]) hm)
        exact ⟨d, by rw [hstep, if_neg (by rw [hi']; exact fun hEq => nomatch hEq)]; exact hdd⟩
  refine ⟨ha, ?_, ?_, hd, ?_⟩
  · intro r ch tl m pre i post hr hm himg hpre hi hcomma
    rw [show App.extract_image_from_response r
          = (match r.choices with
             | [] => .ok (none, none)
             | ch :: _ =>
               match ch.message with
               | none => .ok (none, none)
               | some message =>
                 match message.images with
                 | none => .ok (none, textOf message)
                 | some imgs =>
                   match scanImages imgs with
                   | .ok image_data => .ok (image_data, textOf message)
                   | .error e => .error e) from rfl]
    simp only [hr, hm, himg, ha pre i post hpre hi hcomma]
  · intro fs out pre i post hpre hi hcomma
    rw [scanSave_skip fs out pre _ hpre,
        show Cli.scanSave fs out (i :: post)
          = if matchItem i then
              (match afterFirst ',' i.url.data with
               | none => (fs, .crash indexErrorMsg)
               | some payload =>
                 match b64decode ⟨payload⟩ with
                 | none => (fsWrite fs out [], .crash base64ErrorMsg)
                 | some bytes => (fsWrite fs out bytes, .ret true))
            else Cli.scanSave fs out post from rfl,
        if_pos (by rw [hi]), hcomma]
  · intro r h
    rw [show App.extract_image_from_response r
          = (match r.choices with
             | [] => .ok (none, none)
             | ch :: _ =>
               match ch.message with
               | none => .ok (none, none)
               | some message =>
                 match message.images with
                 | none => .ok (none, textOf message)
                 | some imgs =>
                   match scanImages imgs with
                   | .ok image_data => .ok (image_data, textOf message)
                   | .error e => .error e) from rfl]
    cases hr : r.choices with
    | nil => exact ⟨(none, none), rfl⟩
    | cons ch tl =>
      cases hm : ch.message with
      | none => exact ⟨(none, none), by simp only [hm]⟩
      | some m =>
        cases himg : m.images with
        | none => exact ⟨(none, textOf m), by simp only [hm, himg]⟩
        | some imgs =>
          have himgs : respImages r = imgs := by
            rw [show respImages r
                  = (match r.choices with
                     | [] => []
                     | ch :: _ =>
                       match ch.message with
                       | none => []
                       | some m => m.images.getD []) from rfl]
            simp only [hr, hm, himg, Option.getD_some]
          obtain ⟨d, hdd⟩ := hd imgs (by rw [← himgs] at *; exact h)
          exact ⟨(d, textOf m), by simp only [hm, himg, hdd]⟩

/-- C9 witness: the comma-less data URI response, through both
extractors. -/
theorem C9_extractor_partiality_witness :
    matchItem itemNoComma = true
    ∧ afterFirst ',' itemNoComma.url.data = none
    ∧ App.extract_image_from_response respNoComma = .error ()
    ∧ Cli.scanSave [] "out.png" [itemNoComma] = ([], .crash indexErrorMsg) := by
  refine ⟨rfl, rfl, ?_, ?_⟩
  · exact C9_extractor_partiality.2.1 respNoComma _ []
      { content := some "Name", images := some [itemNoComma] } [] itemNoComma []
      rfl rfl rfl (fun i2 hi2 => absurd hi2 (List.not_mem_nil _)) rfl rfl
  · exact C9_extractor_partiality.2.2.1 [] "out.png" [] itemNoComma []
      (fun i2 hi2 => absurd hi2 (List.not_mem_nil _)) rfl rfl

/-- C10.  Generate-prompt default: a `/api/generate` body without the
`"prompt"` key is not rejected — the handler behaves exactly as if the
body had supplied the fixed default `"a cute fantasy animal"`, and with
a valid credential the single outbound request carries that default
inside the generation prompt text. -/
theorem C10_generate_prompt_default (fs : FS) (apiKey : Option String)
    (oracle : Req → ApiResult) (newId : String) (body : List (String × Json))
    (h : body.lookup "prompt" = none) :
    App.generate_animal fs apiKey oracle newId body
      = App.generate_animal fs apiKey oracle newId
          (("prompt", Json.str "a cute fantasy animal") :: body)
    ∧ ∀ k, apiKey = some k → (k == "") = false →
        (App.generate_animal fs apiKey oracle newId body).2.2
          = [{ model := App.IMAGE_MODEL,
               content := .plain (App.generatePromptText "a cute fantasy animal") }] := by
  have hc : ((("prompt", Json.str "a cute fantasy animal") :: body).lookup "prompt")
      = some (Json.str "a cute fantasy animal") := rfl
  have hps : pyStr (Json.str "a cute fantasy animal") = "a cute fantasy animal" := by
    simp [pyStr]
  constructor
  · simp only [App.generate_animal, h, hc, Option.getD_none, Option.getD_some]
  · intro k hkey hk
    subst hkey
    have hcl : App.get_client (some k) = .ok () := by
      simp [App.get_client, hk]
    simp only [App.generate_animal, h, Option.getD_none, hcl, hps]
    generalize Req.mk App.IMAGE_MODEL
      (ReqContent.plain (App.generatePromptText "a cute fantasy animal")) = q
    cases ho : oracle q with
    | raise e => simp only [ho]
    | success r =>
      simp only [ho]
      cases hex : App.extract_image_from_response r with
      | error e => simp only [hex]
      | ok p =>
        obtain ⟨d, nm⟩ := p
        simp only [hex]
        cases d with
        | none => rfl
        | some payload =>
          cases hb : b64decode payload with
          | none => simp only [hb]
          | some bytes => simp only [hb]

/-- C10 witness: a body carrying only an unrelated key. -/
theorem C10_generate_prompt_default_witness :
    ([("x", Json.num 1)] : List (String × Json)).lookup "prompt" = none
    ∧ App.generate_animal [] (some "k") (oracleOf respName) "n1" [("x", Json.num 1)]
        = App.generate_animal [] (some "k") (oracleOf respName) "n1"
            (("prompt", Json.str "a cute fantasy animal") :: [("x", Json.num 1)])
    ∧ (App.generate_animal [] (some "k") (oracleOf respName) "n1" [("x", Json.num 1)]).2.2
        = [{ model := App.IMAGE_MODEL,
             content := .plain (App.generatePromptText "a cute fantasy animal") }] := by
  have h := C10_generate_prompt_default [] (some "k") (oracleOf respName) "n1"
    [("x", Json.num 1)] rfl
  exact ⟨rfl, h.1, h.2 "k" rfl rfl⟩

/-- C2 counterexample: with the credential unset, the `/api/random-prompt`
handler does not return a JSON error response with a status at all —
`get_client()` runs before the `try` block, so its `ValueError` escapes
the handler uncaught. -/
theorem C2_missing_credential_counterexample :
    App.random_prompt none oracleRaise = (.uncaught App.keyErrorMsg, [])
    ∧ ¬ ∃ b s, (App.random_prompt none oracleRaise).1 = App.Outcome.json b s := by
  refine ⟨rfl, ?_⟩
  rintro ⟨b, s, hbs⟩
  rw [show (App.random_prompt none oracleRaise).1
        = App.Outcome.uncaught App.keyErrorMsg from rfl] at hbs
  cases hbs

/-- C2 (amended).  Missing credential handling: with the credential
unset (or empty) every operation fails before any network call — zero
outbound requests are made — but only the CLI turns the failure into its
documented exit code 1; the web handlers call `get_client()` outside
their `try`/`except`, so the configuration `ValueError` escapes them
uncaught instead of becoming the handler's JSON 500 error body. -/
theorem C2_missing_credential (oracle : Req → ApiResult) (apiKey : Option String)
    (hkey : apiKey = none ∨ apiKey = some "") :
    App.random_prompt apiKey oracle = (.uncaught App.keyErrorMsg, [])
    ∧ (∀ fs newId body, App.generate_animal fs apiKey oracle newId body
        = (fs, .uncaught App.keyErrorMsg, []))
    ∧ (∀ (fs : FS) newId (body : List (String × Json)) bytes1 bytes2,
        fs.lookup (App.imagePath (pyStr ((body.lookup "parent1_id").getD .null)))
          = some bytes1
        → fs.lookup (App.imagePath (pyStr ((body.lookup "parent2_id").getD .null)))
          = some bytes2
        → App.breed_animals fs apiKey oracle newId body
          = (fs, .uncaught App.keyErrorMsg, []))
    ∧ (∀ fs prompt output model, Cli.generate_from_text fs apiKey oracle prompt output model
        = (fs, .exited 1, []))
    ∧ (∀ fs input prompt output model,
        Cli.generate_from_image fs apiKey oracle input prompt output model
        = (fs, .exited 1, []))
    ∧ (∀ fs i1 i2 prompt output model,
        Cli.generate_from_two_images fs apiKey oracle i1 i2 prompt output model
        = (fs, .exited 1, [])) := by
  have hb : ∀ apiKey, App.get_client apiKey = .error App.keyErrorMsg
      → (∀ (fs : FS) newId (body : List (String × Json)) bytes1 bytes2,
          fs.lookup (App.imagePath (pyStr ((body.lookup "parent1_id").getD .null)))
            = some bytes1
          → fs.lookup (App.imagePath (pyStr ((body.lookup "parent2_id").getD .null)))
            = some bytes2
          → App.breed_animals fs apiKey oracle newId body
            = (fs, .uncaught App.keyErrorMsg, [])) := by
    intro apiKey hcl fs newId body bytes1 bytes2 h1 h2
    simp only [App.breed_animals, h1, h2, hcl]
  rcases hkey with h | h <;> subst h
  · exact ⟨rfl, fun _ _ _ => rfl, hb none rfl,
      fun _ _ _ _ => rfl, fun _ _ _ _ _ => rfl, fun _ _ _ _ _ _ => rfl⟩
  · exact ⟨rfl, fun _ _ _ => rfl, hb (some "") rfl,
      fun _ _ _ _ => rfl, fun _ _ _ _ _ => rfl, fun _ _ _ _ _ _ => rfl⟩

/-- C2 witness: the unset credential on the breed fixture. -/
theorem C2_missing_credential_witness :
    App.random_prompt none oracleRaise = (.uncaught App.keyErrorMsg, [])
    ∧ App.breed_animals fsParents none oracleRaise "c1" breedBody
        = (fsParents, .uncaught App.keyErrorMsg, [])
    ∧ Cli.generate_from_text [] none oracleRaise "a dragon" "out.png" "m"
        = ([], .exited 1, []) := by
  have h := C2_missing_credential oracleRaise none (Or.inl rfl)
  refine ⟨h.1, ?_, h.2.2.2.1 [] "a dragon" "out.png" "m"⟩
  exact h.2.2.1 fsParents "c1" breedBody [1, 2, 3] [9, 8, 7]
    (by simp only [show (breedBody.lookup "parent1_id").getD Json.null
          = Json.str "p1" from rfl,
        show pyStr (Json.str "p1") = "p1" from by simp [pyStr]]; rfl)
    (by simp only [show (breedBody.lookup "parent2_id").getD Json.null
          = Json.str "p2" from rfl,
        show pyStr (Json.str "p2") = "p2" from by simp [pyStr]]; rfl)

/-- C3.  Breed precondition precedes the network: when either parent
identifier does not resolve to an existing image file, `/api/breed`
returns the 404 not-found body and makes zero outbound calls, and the
CLI two-image path returns failure with zero outbound calls. -/
theorem C3_breed_404_before_network :
    (∀ (fs : FS) (apiKey : Option String) (oracle : Req → ApiResult) (newId : String)
       (body : List (String × Json)),
       (fs.lookup (App.imagePath (pyStr ((body.lookup "parent1_id").getD .null))) = none
        ∨ fs.lookup (App.imagePath (pyStr ((body.lookup "parent2_id").getD .null))) = none)
       → App.breed_animals fs apiKey oracle newId body
         = (fs, .json (App.errBody "Parent images not found") 404, []))
    ∧ (∀ (fs : FS) (k : String) (oracle : Req → ApiResult) (i1 i2 prompt output model : String),
        (k == "") = false
        → (fs.lookup i1 = none ∨ fs.lookup i2 = none)
        → Cli.generate_from_two_images fs (some k) oracle i1 i2 prompt output model
          = (fs, .ret false, [])) := by
  constructor
  · intro fs apiKey oracle newId body h
    cases h1 : fs.lookup (App.imagePath (pyStr ((body.lookup "parent1_id").getD .null))) with
    | none => simp only [App.breed_animals, h1]
    | some bytes1 =>
      cases h with
      | inl h2 => rw [h1] at h2; cases h2
      | inr h2 => simp only [App.breed_animals, h1, h2]
  · intro fs k oracle i1 i2 prompt output model hk h
    have hcl : Cli.get_client (some k) = .ok () := by
      simp [Cli.get_client, hk]
    cases h1 : fs.lookup i1 with
    | none => simp only [Cli.generate_from_two_images, hcl, h1]
    | some bytes1 =>
      cases h with
      | inl h2 => rw [h1] at h2; cases h2
      | inr h2 => simp only [Cli.generate_from_two_images, hcl, h1, h2]

/-- C3 witness: a breed body whose second parent id has no file, and a
CLI call whose first input path has no file. -/
theorem C3_breed_404_before_network_witness :
    App.breed_animals fsParents (some "k") oracleRaise "c1"
        [("parent1_id", Json.str "p1"), ("parent2_id", Json.str "zz")]
      = (fsParents, .json (App.errBody "Parent images not found") 404, [])
    ∧ Cli.generate_from_two_images [] (some "k") oracleRaise "a.png" "b.png" "p" "o" "m"
      = ([], .ret false, []) := by
  refine ⟨?_, ?_⟩
  · exact C3_breed_404_before_network.1 fsParents (some "k") oracleRaise "c1"
      [("parent1_id", Json.str "p1"), ("parent2_id", Json.str "zz")]
      (Or.inr (by
        simp only [show (([("parent1_id", Json.str "p1"),
              ("parent2_id", Json.str "zz")] : List (String × Json)).lookup
              "parent2_id").getD Json.null = Json.str "zz" from rfl,
          show pyStr (Json.str "zz") = "zz" from by simp [pyStr]]
        rfl))
  · exact C3_breed_404_before_network.2 [] "k" oracleRaise "a.png" "b.png" "p" "o" "m"
      rfl (Or.inl rfl)

/-- C5.  Derived-name fallback: a successful operation names the result
by the stripped extracted text when present; a breed without an
extracted name falls back to the first three characters of parent 1's
name followed by the last three of parent 2's (Alphaborn/Zephyrix give
Alprix), and a single generation without an extracted name uses the
fixed default — shown on the name derivations of both handlers and on
full handler runs over the fixtures. -/
theorem C5_derived_name :
    (∀ t : String, App.generateName (some t) = pyStrip t)
    ∧ App.generateName none = "Unknown Creature"
    ∧ (∀ (t : String) (p1 p2 : Json), App.breedName (some t) p1 p2 = some (pyStrip t))
    ∧ (∀ n1 n2 : String, App.breedName none (.str n1) (.str n2)
        = some (sliceFirst3 n1 ++ sliceLast3 n2))
    ∧ App.breedName none (.str "Alphaborn") (.str "Zephyrix") = some "Alprix"
    ∧ (∃ b : Json, (App.generate_animal [] (some "k") (oracleOf respName) "g1" []).2.1
          = .json b 200 ∧ jGet b "name" = some (.str "Name"))
    ∧ (∃ b : Json, (App.generate_animal [] (some "k") (oracleOf respImgOnly) "g1" []).2.1
          = .json b 200 ∧ jGet b "name" = some (.str "Unknown Creature"))
    ∧ (∃ b : Json, (App.breed_animals fsParents (some "k") (oracleOf respImgOnly) "c1"
          breedBody).2.1 = .json b 200 ∧ jGet b "name" = some (.str "Alprix")) := by
  refine ⟨fun _ => rfl, rfl, fun _ _ _ => rfl, ?_, ?_, ⟨_, rfl, rfl⟩, ⟨_, rfl, rfl⟩, ?_⟩
  · intro n1 n2
    simp only [App.breedName, pySliceFirst3, pySliceLast3, pyStr]
  · simp only [App.breedName, pySliceFirst3, pySliceLast3, pyStr]
    rfl
  · have hb1 : (breedBody.lookup "parent1_id").getD Json.null = Json.str "p1" := rfl
    have hb2 : (breedBody.lookup "parent2_id").getD Json.null = Json.str "p2" := rfl
    have hm1 : (breedBody.lookup "parent1_name").getD (Json.str "creature 1")
        = Json.str "Alphaborn" := rfl
    have hm2 : (breedBody.lookup "parent2_name").getD (Json.str "creature 2")
        = Json.str "Zephyrix" := rfl
    have hp1 : pyStr (Json.str "p1") = "p1" := by simp [pyStr]
    have hp2 : pyStr (Json.str "p2") = "p2" := by simp [pyStr]
    have hf1 : fsParents.lookup (App.imagePath "p1") = some [1, 2, 3] := rfl
    have hf2 : fsParents.lookup (App.imagePath "p2") = some [9, 8, 7] := rfl
    have hcl : App.get_client (some "k") = .ok () := rfl
    have hex : App.extract_image_from_response respImgOnly = .ok (some "AAAA", none) := rfl
    have hdec : b64decode "AAAA" = some [0, 0, 0] := rfl
    have hnm : App.breedName none (Json.str "Alphaborn") (Json.str "Zephyrix")
        = some "Alprix" := by
      simp only [App.breedName, pySliceFirst3, pySliceLast3, pyStr]
      rfl
    simp only [App.breed_animals, hb1, hb2, hm1, hm2, hp1, hp2, hf1, hf2, hcl,
      oracleOf, hex, hdec, hnm]
    exact ⟨_, rfl, rfl⟩

/-- C7.  Breeding request shape and parent order: with both parents on
disk and a valid credential, the single outbound request's content is
one text block followed by parent 1's image and then parent 2's image
as data URIs; the text block contains the design-their-offspring, the
don\x27t-just-blend-the-images and the respond-with-only-the-name
instructions; and a 200 response carries `parents` as
`[parent1_id, parent2_id]` in request order. -/
theorem C7_breed_request_shape (fs : FS) (k : String) (oracle : Req → ApiResult)
    (newId : String) (body : List (String × Json)) (p1v p2v n1v n2v : Json)
    (bytes1 bytes2 : List Nat)
    (hk : (k == "") = false)
    (h1v : (body.lookup "parent1_id").getD .null = p1v)
    (h2v : (body.lookup "parent2_id").getD .null = p2v)
    (hn1 : (body.lookup "parent1_name").getD (.str "creature 1") = n1v)
    (hn2 : (body.lookup "parent2_name").getD (.str "creature 2") = n2v)
    (hf1 : fs.lookup (App.imagePath (pyStr p1v)) = some bytes1)
    (hf2 : fs.lookup (App.imagePath (pyStr p2v)) = some bytes2) :
    (App.breed_animals fs (some k) oracle newId body).2.2
      = [{ model := App.IMAGE_MODEL,
           content := .blocks
             [.text (App.breedPrompt (pyStr n1v) (pyStr n2v)),
              .image_url ("data:image/png;base64," ++ ⟨b64encode bytes1⟩),
              .image_url ("data:image/png;base64," ++ ⟨b64encode bytes2⟩)] }]
    ∧ hasSegment App.phraseDesign (App.breedPrompt (pyStr n1v) (pyStr n2v))
    ∧ hasSegment App.phraseNoBlend (App.breedPrompt (pyStr n1v) (pyStr n2v))
    ∧ hasSegment App.phraseOnlyName (App.breedPrompt (pyStr n1v) (pyStr n2v))
    ∧ (∀ fs2 b t, App.breed_animals fs (some k) oracle newId body = (fs2, .json b 200, t)
        → jGet b "parents" = some (.arr [p1v, p2v])) := by
  have hcl : App.get_client (some k) = .ok () := by
    simp [App.get_client, hk]
  refine ⟨?_, ?_, ?_, ?_, ?_⟩
  · simp only [App.breed_animals, h1v, h2v, hn1, hn2, hf1, hf2, hcl]
    generalize Req.mk App.IMAGE_MODEL (ReqContent.blocks
      [.text (App.breedPrompt (pyStr n1v) (pyStr n2v)),
       .image_url ("data:image/png;base64," ++ ⟨b64encode bytes1⟩),
       .image_url ("data:image/png;base64," ++ ⟨b64encode bytes2⟩)]) = q
    cases ho : oracle q with
    | raise e => simp only [ho]
    | success r =>
      simp only [ho]
      cases hex : App.extract_image_from_response r with
      | error e => simp only [hex]
      | ok p =>
        obtain ⟨d, nm⟩ := p
        simp only [hex]
        cases d with
        | none => rfl
        | some payload =>
          cases hb : b64decode payload with
          | none => simp only [hb]
          | some bytes =>
            simp only [hb]
            cases hbn : App.breedName nm n1v n2v with
            | none => simp only [hbn]
            | some name => simp only [hbn]
  · exact ⟨(App.bp1 ++ pyStr n1v ++ App.bp2 ++ pyStr n2v ++ App.bp3).data,
      (App.bp4 ++ App.phraseNoBlend ++ App.bp5 ++ App.phraseOnlyName ++ App.bp6).data,
      by simp only [App.breedPrompt, strAppData, List.append_assoc]⟩
  · exact ⟨(App.bp1 ++ pyStr n1v ++ App.bp2 ++ pyStr n2v ++ App.bp3 ++ App.phraseDesign
        ++ App.bp4).data,
      (App.bp5 ++ App.phraseOnlyName ++ App.bp6).data,
      by simp only [App.breedPrompt, strAppData, List.append_assoc]⟩
  · exact ⟨(App.bp1 ++ pyStr n1v ++ App.bp2 ++ pyStr n2v ++ App.bp3 ++ App.phraseDesign
        ++ App.bp4 ++ App.phraseNoBlend ++ App.bp5).data,
      App.bp6.data,
      by simp only [App.breedPrompt, strAppData, List.append_assoc]⟩
  · intro fs2 b t hrun
    simp only [App.breed_animals, h1v, h2v, hn1, hn2, hf1, hf2, hcl] at hrun
    split at hrun
    · have h2 := congrArg (fun x => x.2.1) hrun
      injection h2 with hb hs
      omega
    · split at hrun
      · have h2 := congrArg (fun x => x.2.1) hrun
        injection h2 with hb hs
        omega
      · split at hrun
        · have h2 := congrArg (fun x => x.2.1) hrun
          injection h2 with hb hs
          omega
        · split at hrun
          · have h2 := congrArg (fun x => x.2.1) hrun
            injection h2 with hb hs
            omega
          · split at hrun
            · have h2 := congrArg (fun x => x.2.1) hrun
              injection h2 with hb hs
              omega
            · have h2 := congrArg (fun x => x.2.1) hrun
              injection h2 with hb hs
              rw [← hb]
              rfl

/-- C7 witness: the breed fixture with parents p1 and p2. -/
theorem C7_breed_request_shape_witness :
    (App.breed_animals fsParents (some "k") (oracleOf respImgOnly) "c1" breedBody).2.2
      = [{ model := App.IMAGE_MODEL,
           content := .blocks
             [.text (App.breedPrompt (pyStr (Json.str "Alphaborn"))
                 (pyStr (Json.str "Zephyrix"))),
              .image_url ("data:image/png;base64," ++ ⟨b64encode [1, 2, 3]⟩),
              .image_url ("data:image/png;base64," ++ ⟨b64encode [9, 8, 7]⟩)] }]
    ∧ hasSegment App.phraseNoBlend (App.breedPrompt (pyStr (Json.str "Alphaborn"))
        (pyStr (Json.str "Zephyrix"))) := by
  have h := C7_breed_request_shape fsParents "k" (oracleOf respImgOnly) "c1" breedBody
    (Json.str "p1") (Json.str "p2") (Json.str "Alphaborn") (Json.str "Zephyrix")
    [1, 2, 3] [9, 8, 7] rfl rfl rfl rfl rfl
    (by simp only [show pyStr (Json.str "p1") = "p1" from by simp [pyStr]]; rfl)
    (by simp only [show pyStr (Json.str "p2") = "p2" from by simp [pyStr]]; rfl)
  exact ⟨h.1, h.2.2.1⟩

/-- C4 counterexample: a generation whose extracted payload is not valid
base64 fails with the 500 error body and yet persists a file — the
output file is opened (created empty) before the payload is decoded, so
the failure path leaves `static/generated/g1.png` behind. -/
theorem C4_atomicity_counterexample :
    isFail (App.generate_animal [] (some "k") (oracleOf respBad) "g1" []).2.1
    ∧ (App.generate_animal [] (some "k") (oracleOf respBad) "g1" []).2.1
        = .json (App.errBody base64ErrorMsg) 500
    ∧ (App.generate_animal [] (some "k") (oracleOf respBad) "g1" []).1
        = fsWrite [] (App.imagePath "g1") [] :=
  ⟨(by omega : (500 : Nat) ≠ 200), rfl, rfl⟩

/-- C4 (amended).  Atomicity on failure, as the code behaves: a generate
or breed run either fully succeeds (decoded bytes persisted under the
new identifier with a 200 body), or fails leaving the file system
unchanged, or — when the extracted payload is present but not valid
base64 — fails with the 500 error body while persisting an EMPTY file
under the new identifier; a breed can additionally fail with a 500
after the decoded image has already been persisted, when the fallback
name computation raises `TypeError` on unsliceable parent names. -/
theorem C4_atomicity (fs : FS) (apiKey : Option String) (oracle : Req → ApiResult)
    (newId : String) (body : List (String × Json)) :
    ((∃ bytes b t, App.generate_animal fs apiKey oracle newId body
          = (fsWrite fs (App.imagePath newId) bytes, .json b 200, t))
      ∨ (∃ out t, App.generate_animal fs apiKey oracle newId body = (fs, out, t)
          ∧ isFail out)
      ∨ (∃ t, App.generate_animal fs apiKey oracle newId body
          = (fsWrite fs (App.imagePath newId) [],
             .json (App.errBody base64ErrorMsg) 500, t)))
    ∧ ((∃ bytes b t, App.breed_animals fs apiKey oracle newId body
          = (fsWrite fs (App.imagePath newId) bytes, .json b 200, t))
      ∨ (∃ out t, App.breed_animals fs apiKey oracle newId body = (fs, out, t)
          ∧ isFail out)
      ∨ (∃ t, App.breed_animals fs apiKey oracle newId body
          = (fsWrite fs (App.imagePath newId) [],
             .json (App.errBody base64ErrorMsg) 500, t))
      ∨ (∃ bytes t, App.breed_animals fs apiKey oracle newId body
          = (fsWrite fs (App.imagePath newId) bytes,
             .json (App.errBody typeErrorMsg) 500, t))) := by
  constructor
  · cases hc : App.get_client apiKey with
    | error e =>
      exact Or.inr (Or.inl ⟨.uncaught e, [],
        by simp only [App.generate_animal, hc], trivial⟩)
    | ok u =>
      simp only [App.generate_animal, hc]
      generalize Req.mk App.IMAGE_MODEL (ReqContent.plain (App.generatePromptText
        (pyStr ((body.lookup "prompt").getD (Json.str "a cute fantasy animal"))))) = q
      cases ho : oracle q with
      | raise e =>
        exact Or.inr (Or.inl ⟨.json (App.errBody e) 500, [q],
          by simp only [ho], (by omega : (500 : Nat) ≠ 200)⟩)
      | success r =>
        simp only [ho]
        cases hex : App.extract_image_from_response r with
        | error e =>
          exact Or.inr (Or.inl ⟨.json (App.errBody indexErrorMsg) 500, [q],
            by simp only [hex], (by omega : (500 : Nat) ≠ 200)⟩)
        | ok p =>
          obtain ⟨d, nm⟩ := p
          simp only [hex]
          cases d with
          | none =>
            exact Or.inr (Or.inl ⟨.json (App.errBody "No image generated") 500, [q],
              rfl, (by omega : (500 : Nat) ≠ 200)⟩)
          | some payload =>
            cases hb : b64decode payload with
            | none => exact Or.inr (Or.inr ⟨[q], by simp only [hb]⟩)
            | some bytes => exact Or.inl ⟨bytes, _, [q], by simp only [hb]; rfl⟩
  · cases h1 : fs.lookup (App.imagePath (pyStr ((body.lookup "parent1_id").getD
        Json.null))) with
    | none =>
      exact Or.inr (Or.inl ⟨.json (App.errBody "Parent images not found") 404, [],
        by simp only [App.breed_animals, h1], (by omega : (404 : Nat) ≠ 200)⟩)
    | some bytes1 =>
      cases h2 : fs.lookup (App.imagePath (pyStr ((body.lookup "parent2_id").getD
          Json.null))) with
      | none =>
        exact Or.inr (Or.inl ⟨.json (App.errBody "Parent images not found") 404, [],
          by simp only [App.breed_animals, h1, h2], (by omega : (404 : Nat) ≠ 200)⟩)
      | some bytes2 =>
        cases hc : App.get_client apiKey with
        | error e =>
          exact Or.inr (Or.inl ⟨.uncaught e, [],
            by simp only [App.breed_animals, h1, h2, hc], trivial⟩)
        | ok u =>
          simp only [App.breed_animals, h1, h2, hc]
          generalize Req.mk App.IMAGE_MODEL (ReqContent.blocks
            [.text (App.breedPrompt
               (pyStr ((body.lookup "parent1_name").getD (Json.str "creature 1")))
               (pyStr ((body.lookup "parent2_name").getD (Json.str "creature 2")))),
             .image_url ("data:image/png;base64," ++ ⟨b64encode bytes1⟩),
             .image_url ("data:image/png;base64," ++ ⟨b64encode bytes2⟩)]) = q
          cases ho : oracle q with
          | raise e =>
            exact Or.inr (Or.inl ⟨.json (App.errBody e) 500, [q],
              by simp only [ho], (by omega : (500 : Nat) ≠ 200)⟩)
          | success r =>
            simp only [ho]
            cases hex : App.extract_image_from_response r with
            | error e =>
              exact Or.inr (Or.inl ⟨.json (App.errBody indexErrorMsg) 500, [q],
                by simp only [hex], (by omega : (500 : Nat) ≠ 200)⟩)
            | ok p =>
              obtain ⟨d, nm⟩ := p
              simp only [hex]
              cases d with
              | none =>
                exact Or.inr (Or.inl ⟨.json (App.errBody "No image generated") 500, [q],
                  rfl, (by omega : (500 : Nat) ≠ 200)⟩)
              | some payload =>
                cases hb : b64decode payload with
                | none => exact Or.inr (Or.inr (Or.inl ⟨[q], by simp only [hb]⟩))
                | some bytes =>
                  simp only [hb]
                  cases hbn : App.breedName nm
                      ((body.lookup "parent1_name").getD (Json.str "creature 1"))
                      ((body.lookup "parent2_name").getD (Json.str "creature 2")) with
                  | none =>
                    exact Or.inr (Or.inr (Or.inr ⟨bytes, [q], by simp only [hbn]⟩))
                  | some name => exact Or.inl ⟨bytes, _, [q], by simp only [hbn]; rfl⟩
